import Mathlib

/-!
Verification development for the runtime decoding core of the
`aptos-tsgen` library: a shallow embedding of `src/parserRepo.ts` and
`src/aptosResourceCache.ts`, together with a spec-modelled type-tag
layer (the repository's `typeTag.ts` module is referenced by the code
but its source is not part of the repository snapshot).

Modelling conventions:
- JavaScript `Record<string, T>` objects become association lists with
  first-occurrence lookup and in-place upsert, which coincides with
  JS object semantics on duplicate-free key lists.
- Thrown exceptions become `Except String`.
- Listener callbacks are observed as an emitted event trace; each
  event records the resource key whose notification loop fired it,
  the listener record, the update kind and the payload.
- The decoder registry stores defunctionalised parser codes; `runParser`
  interprets a code with a fuel bound that decreases only when a
  vector/struct parser recurses into nested values, so within one
  nesting level all subcalls run at the same fuel.
-/

/-- First-occurrence lookup in an association list (JS `obj[k]`). -/
def alookup {α : Type} (k : String) : List (String × α) → Option α
  | [] => none
  | (k2, v) :: rest => if k2 = k then some v else alookup k rest

/-- In-place insert-or-replace (JS `obj[k] = v`): replaces the first
occurrence, appends when the key is absent. -/
def upsert {α : Type} (k : String) (v : α) : List (String × α) → List (String × α)
  | [] => [(k, v)]
  | (k2, v2) :: rest => if k2 = k then (k, v) :: rest else (k2, v2) :: upsert k v rest

/-- Key removal (JS `delete obj[k]`). -/
def aerase {α : Type} (k : String) : List (String × α) → List (String × α)
  | [] => []
  | p :: rest => if p.1 = k then aerase k rest else p :: aerase k rest

/-- `startsWith`, phrased over character lists so that closed instances
reduce definitionally. -/
def strStartsWith (s pre : String) : Bool :=
  pre.data.isPrefixOf s.data

/-- `String.drop`, phrased over character lists so that closed instances
reduce definitionally. -/
def strDrop (s : String) (n : Nat) : String :=
  String.mk (s.data.drop n)

/-- Model of the aptos SDK `HexString` class: the stored string always
carries the `0x` prefix. -/
structure HexString where
  hexString : String
deriving DecidableEq, Repr

/-- `new HexString(s)`: adds the `0x` prefix when missing. -/
def HexString.fromString (s : String) : HexString :=
  if strStartsWith s "0x" then ⟨s⟩ else ⟨"0x" ++ s⟩

/-- `HexString.hex()`. -/
def HexString.hex (h : HexString) : String := h.hexString

/-- The hex digits without the `0x` prefix. -/
def HexString.noPre (h : HexString) : String := strDrop h.hexString 2

/-- `HexString.toShortString()`: drops leading zero digits. -/
def HexString.toShortString (h : HexString) : String :=
  "0x" ++ String.mk (h.noPre.data.dropWhile (fun c => c = '0'))

/-- Modelled from the spec: the atomic type-tag singletons of the
missing `typeTag.ts` module (spec section 3). -/
inductive AtomicTypeTag where
  | bool
  | u8
  | u64
  | u128
  | address
deriving DecidableEq, Repr

/-- Modelled from the spec: the `TypeTag` closed sum of the missing
`typeTag.ts` module — atomics, `vector<e>`, nominal structs with generic
arguments, and unresolved generic-parameter references (spec section 3). -/
inductive TypeTag where
  | atomic (tag : AtomicTypeTag)
  | vector (elementType : TypeTag)
  | structTag (address : HexString) (module : String) (name : String)
      (typeParams : List TypeTag)
  | typeParamIdx (index : Nat)

/-- The token rendering an atomic tag. -/
def AtomicTypeTag.token : AtomicTypeTag → String
  | .bool => "bool"
  | .u8 => "u8"
  | .u64 => "u64"
  | .u128 => "u128"
  | .address => "address"

mutual

/-- Modelled from the spec: `getTypeTagFullname` of the missing
`typeTag.ts` module — canonical rendering with generic arguments
(spec sections 3 and 4.1). -/
def getTypeTagFullname : TypeTag → String
  | .atomic a => a.token
  | .vector elementType => "vector<" ++ getTypeTagFullname elementType ++ ">"
  | .structTag address module name typeParams =>
      address.hex ++ "::" ++ module ++ "::" ++ name ++
        (match typeParams with
         | [] => ""
         | ps => "<" ++ joinFullnames ps ++ ">")
  | .typeParamIdx index => "$tv" ++ toString index

/-- Comma-joined full names of a generic-argument list. -/
def joinFullnames : List TypeTag → String
  | [] => ""
  | [t] => getTypeTagFullname t
  | t :: rest => getTypeTagFullname t ++ "," ++ joinFullnames rest

end

/-- Modelled from the spec: `getTypeTagParamlessName` of the missing
`typeTag.ts` module — generics-erased identity used as the decoder
registry key (spec section 3). -/
def getTypeTagParamlessName : TypeTag → String
  | .atomic a => a.token
  | .vector _ => "vector"
  | .structTag address module name _ => address.hex ++ "::" ++ module ++ "::" ++ name
  | .typeParamIdx index => "$tv" ++ toString index

/-- Identifier characters of the type-signature grammar. -/
def isIdentChar (c : Char) : Bool :=
  c.isAlphanum || c = '_'

/-- Hexadecimal digit test. -/
def isHexDigitChar (c : Char) : Bool :=
  c.isDigit || ('a' ≤ c && c ≤ 'f') || ('A' ≤ c && c ≤ 'F')

/-- Longest identifier prefix of a character list. -/
def takeIdent (cs : List Char) : String × List Char :=
  (String.mk (cs.takeWhile isIdentChar), cs.dropWhile isIdentChar)

/-- Skip blanks (the spec's prose writes generic arguments with an
optional space after the comma). -/
def skipSpaces (cs : List Char) : List Char :=
  cs.dropWhile (fun c => c = ' ')

mutual

/-- Modelled from the spec: recursive-descent parser for the grammar of
spec section 4.1 (`Type := atomic | vector<Type> | Addr::Ident::Ident[<args>]`),
standing in for the missing `typeTag.ts` parser. The fuel bounds the
bracket-nesting depth; callers supply the input length, which dominates it. -/
def parseTy : Nat → List Char → Option (TypeTag × List Char)
  | 0, _ => none
  | Nat.succ fuel, cs =>
    let cs := skipSpaces cs
    let (tok, rest) := takeIdent cs
    if tok = "" then none
    else if tok = "vector" then
      match rest with
      | '<' :: rest2 =>
        match parseTy fuel rest2 with
        | some (elemTy, rest3) =>
          match skipSpaces rest3 with
          | '>' :: rest4 => some (.vector elemTy, rest4)
          | _ => none
        | none => none
      | _ => none
    else if tok = "bool" then some (.atomic .bool, rest)
    else if tok = "u8" then some (.atomic .u8, rest)
    else if tok = "u64" then some (.atomic .u64, rest)
    else if tok = "u128" then some (.atomic .u128, rest)
    else if tok = "address" then some (.atomic .address, rest)
    else if strStartsWith tok "0x" && (strDrop tok 2).length > 0
            && (strDrop tok 2).data.all isHexDigitChar then
      match rest with
      | ':' :: ':' :: rest2 =>
        let (modName, rest3) := takeIdent rest2
        if modName = "" then none
        else
          match rest3 with
          | ':' :: ':' :: rest4 =>
            let (structName, rest5) := takeIdent rest4
            if structName = "" then none
            else
              match rest5 with
              | '<' :: rest6 =>
                match parseTyArgs fuel rest6 with
                | some (args, rest7) =>
                  some (.structTag ⟨tok⟩ modName structName args, rest7)
                | none => none
              | _ => some (.structTag ⟨tok⟩ modName structName [], rest5)
          | _ => none
      | _ => none
    else none

/-- Generic-argument list: `Type (',' Type)* '>'`. -/
def parseTyArgs : Nat → List Char → Option (List TypeTag × List Char)
  | 0, _ => none
  | Nat.succ fuel, cs =>
    match parseTy fuel cs with
    | some (t, rest) =>
      match skipSpaces rest with
      | ',' :: rest2 =>
        match parseTyArgs fuel rest2 with
        | some (ts, rest3) => some (t :: ts, rest3)
        | none => none
      | '>' :: rest2 => some ([t], rest2)
      | _ => none
    | none => none

end

/-- Modelled from the spec: `parseTypeTag` of the missing `typeTag.ts`
module — whole-input parse returning `none` on any malformation
(spec section 4.1). -/
def parseTypeTag (s : String) : Option TypeTag :=
  match parseTy (s.length + 1) s.data with
  | some (t, rest) => if skipSpaces rest = [] then some t else none
  | none => none

/-- Modelled from the spec: `parseTypeTagOrThrow` of the missing
`typeTag.ts` module — throwing variant of `parseTypeTag`. -/
def parseTypeTagOrThrow (s : String) : Except String TypeTag :=
  match parseTypeTag s with
  | some t => Except.ok t
  | none => Except.error ("Invalid type tag: " ++ s)

/-- JSON-like wire values and decoded values in one sum. Raw API data
uses the null/bool/num/str/arr/obj constructors; decoders additionally
produce `vBigInt` (the `big-integer` results of the u64/u128 parsers)
and `vHex` (the `HexString` results of the address parser). `vNum`
carries a rational, standing for a JS number. -/
inductive Value where
  | vNull
  | vBool (b : Bool)
  | vNum (n : Rat)
  | vStr (s : String)
  | vArr (elements : List Value)
  | vObj (entries : List (String × Value))
  | vBigInt (n : Int)
  | vHex (h : HexString)

/-- JS `typeof data === "object"`: objects, arrays and `null`. -/
def isObjType : Value → Bool
  | .vObj _ => true
  | .vArr _ => true
  | .vNull => true
  | _ => false

/-- The key/value entries seen by the JS `in` operator and indexing;
struct-field names are non-numeric, so arrays expose none. -/
def objEntries : Value → List (String × Value)
  | .vObj entries => entries
  | _ => []

/-- Numeric value of one hexadecimal digit. -/
def hexDigitVal (c : Char) : Option Nat :=
  if c.isDigit then some (c.toNat - 48)
  else if 'a' ≤ c && c ≤ 'f' then some (c.toNat - 87)
  else if 'A' ≤ c && c ≤ 'F' then some (c.toNat - 55)
  else none

/-- Byte decoding of a hex-digit list, as `Buffer.from(s, "hex")` inside
`HexString.toUint8Array` behaves: consume digit pairs greedily and stop
at the first non-digit or incomplete pair. -/
def hexToBytes : List Char → List Nat
  | c1 :: c2 :: rest =>
    match hexDigitVal c1, hexDigitVal c2 with
    | some hi, some lo => (16 * hi + lo) :: hexToBytes rest
    | _, _ => []
  | _ => []

/-- Decimal-string reading of the `big-integer` package: every
character a digit, at least one digit. -/
def decValue (cs : List Char) : Option Nat :=
  if cs ≠ [] && cs.all Char.isDigit then
    some (cs.foldl (fun a c => 10 * a + (c.toNat - 48)) 0)
  else none

/-- `bigInt(s)` on a decimal string, with an optional leading minus. -/
def parseBigIntDec (s : String) : Option Int :=
  match s.data with
  | '-' :: rest => (decValue rest).map (fun n => -(n : Int))
  | cs => (decValue cs).map (fun n => (n : Int))

/-- `TypeParamDeclType` of `parserRepo.ts`. -/
structure TypeParamDeclType where
  name : String
  isPhantom : Bool

/-- `FieldDeclType` of `parserRepo.ts`. -/
structure FieldDeclType where
  name : String
  typeTag : TypeTag

/-- `StructInfoType` of `parserRepo.ts`: the generator-produced schema
plus the class constructor. `mkInstance` stands for `new(proto, typeTag)`;
`name` is the JS class name read by `parseStructProto` and `structName` is
the generated static field read by the cache (the generator emits them
equal, the embedding keeps both). -/
structure StructInfoType where
  moduleAddress : HexString
  moduleName : String
  name : String
  structName : String
  typeParameters : List TypeParamDeclType
  fields : List FieldDeclType
  mkInstance : Value → TypeTag → Value

/-- Defunctionalised parser functions: the registry in the source holds
the built-in decoders registered by `addDefaultParsers` and the
generated per-struct parsers (`parseStructProto` + constructor), so a
registry entry is one of these codes. -/
inductive ParserCode where
  | boolP
  | u8P
  | u64P
  | u128P
  | addressP
  | vectorP
  | asciiP
  | structP (struct : StructInfoType)

/-- `AptosParserRepo`: the decoder registry keyed by paramless name. -/
structure AptosParserRepo where
  paramlessNameToParser : List (String × ParserCode)

/-- `AptosParserRepo.getParserFromParamlessName`. -/
def getParserFromParamlessName (repo : AptosParserRepo) (paramlessName : String) :
    Option ParserCode :=
  alookup paramlessName repo.paramlessNameToParser

/-- `AptosParserRepo.getParserFromTypeTag`. -/
def getParserFromTypeTag (repo : AptosParserRepo) (typeTag : TypeTag) :
    Option ParserCode :=
  getParserFromParamlessName repo (getTypeTagParamlessName typeTag)

/-- `AptosParserRepo.addParser`. -/
def addParser (repo : AptosParserRepo) (paramlessName : String) (parser : ParserCode) :
    AptosParserRepo :=
  { repo with paramlessNameToParser := upsert paramlessName parser repo.paramlessNameToParser }

/-- `U8Parser` of `parserRepo.ts`. -/
def U8Parser (data : Value) (typeTag : TypeTag) (_repo : AptosParserRepo) :
    Except String Value :=
  match typeTag with
  | .atomic .u8 =>
    match data with
    | .vNum n =>
      if n < 0 || n > 255 then
        Except.error "U8Parser expects a number between 0 and 255"
      else if !n.isInt then
        Except.error "U8Parser expects an integer"
      else Except.ok (.vNum n)
    | _ => Except.error "U8Parser expects number type as data"
  | _ => Except.error "U8Parser cannot parse type"

/-- `U64Parser` of `parserRepo.ts`. -/
def U64Parser (data : Value) (typeTag : TypeTag) (_repo : AptosParserRepo) :
    Except String Value :=
  match typeTag with
  | .atomic .u64 =>
    match data with
    | .vStr s =>
      match parseBigIntDec s with
      | some n => Except.ok (.vBigInt n)
      | none => Except.error "Invalid integer"
    | _ => Except.error "U64Parser expects string type as data"
  | _ => Except.error "U64Parser cannot parse type"

/-- `U128Parser` of `parserRepo.ts`. -/
def U128Parser (data : Value) (typeTag : TypeTag) (_repo : AptosParserRepo) :
    Except String Value :=
  match typeTag with
  | .atomic .u128 =>
    match data with
    | .vStr s =>
      match parseBigIntDec s with
      | some n => Except.ok (.vBigInt n)
      | none => Except.error "Invalid integer"
    | _ => Except.error "U128Parser expects string type as data"
  | _ => Except.error "U128Parser cannot parse type"

/-- `BoolParser` of `parserRepo.ts`. -/
def BoolParser (data : Value) (typeTag : TypeTag) (_repo : AptosParserRepo) :
    Except String Value :=
  match typeTag with
  | .atomic .bool =>
    match data with
    | .vBool b => Except.ok (.vBool b)
    | _ => Except.error "BoolParser expects bool type as data"
  | _ => Except.error "BoolParser cannot parse type"

/-- `AddressParser` of `parserRepo.ts`. -/
def AddressParser (data : Value) (typeTag : TypeTag) (_repo : AptosParserRepo) :
    Except String Value :=
  match typeTag with
  | .atomic .address =>
    match data with
    | .vStr s => Except.ok (.vHex (HexString.fromString s))
    | _ => Except.error "AddressParser expects string type as data"
  | _ => Except.error "AddressParser cannot parse type"

/-- `parseVectorU8` of `parserRepo.ts`: requires a `0x`-prefixed string
and converts its hex digits to bytes. -/
def parseVectorU8 (data : Value) : Except String (List Nat) :=
  match data with
  | .vStr s =>
    if strStartsWith s "0x" then
      Except.ok (hexToBytes (strDrop s 2).data)
    else Except.error "VectorU8 value is supposed to start with 0x"
  | _ => Except.error "VectorU8 parser expects string data"

/-- `AsciiParser` of `parserRepo.ts`: accepts only the well-known
`0x1::ASCII::String` tag and returns the data unchanged (`data as string`
is an unchecked cast). -/
def AsciiParser (data : Value) (typeTag : TypeTag) (_repo : AptosParserRepo) :
    Except String Value :=
  if getTypeTagFullname typeTag = "0x1::ASCII::String" then Except.ok data
  else Except.error "AsciiParser only supports 0x1::ASCII::String"

/-- The type of a one-level parser runner: what `ParserFunc` receives as
recursive entry points, with the registry passed along. -/
def ParserRun : Type :=
  ParserCode → Value → TypeTag → AptosParserRepo → Except String Value

/-- Field-type resolution of `parseStructProto` (line 52-58 of
`parserRepo.ts`): a `TypeParamIdx` field is substituted with the
corresponding entry of the concrete tag's `typeParams`; a missing entry
is the falsy `BAD ParamIdx` case; any other declared tag is used as-is. -/
def resolveFieldTag (declared : TypeTag) (typeParams : List TypeTag) : Option TypeTag :=
  match declared with
  | .typeParamIdx index => typeParams[index]?
  | t => some t

/-- The field loop of `parseStructProto`, with the proto object as
accumulator: check presence, resolve the declared type, look up a
decoder by the resolved tag, decode, store. -/
def parseFieldsF (rec : ParserRun) (repo : AptosParserRepo)
    (entries : List (String × Value)) (typeParams : List TypeTag) :
    List FieldDeclType → List (String × Value) → Except String (List (String × Value))
  | [], proto => Except.ok proto
  | fieldDecl :: rest, proto =>
    match alookup fieldDecl.name entries with
    | none => Except.error ("expects a field named " ++ fieldDecl.name)
    | some raw =>
      match resolveFieldTag fieldDecl.typeTag typeParams with
      | none => Except.error "BAD ParamIdx, see console log for details"
      | some fieldTypeTag =>
        match getParserFromTypeTag repo fieldTypeTag with
        | none => Except.error ("Failed to find parser for " ++ fieldDecl.name)
        | some parser =>
          match rec parser raw fieldTypeTag repo with
          | Except.error e => Except.error e
          | Except.ok parsedValue =>
            parseFieldsF rec repo entries typeParams rest
              (upsert fieldDecl.name parsedValue proto)

/-- `parseStructProto` of `parserRepo.ts`, parameterised by the runner
used for field decoding: tag-shape and identity checks, the bare-string
special case for `0x1::ASCII::String`, then the field loop. -/
def parseStructProtoF (rec : ParserRun) (data : Value) (typeTag : TypeTag)
    (repo : AptosParserRepo) (struct : StructInfoType) : Except String Value :=
  match typeTag with
  | .structTag address module name typeParams =>
    if address.hex ≠ struct.moduleAddress.hex then
      Except.error "expects a matching moduleAddress"
    else if module ≠ struct.moduleName then
      Except.error "expects a matching moduleName"
    else if name ≠ struct.name then
      Except.error "expects a matching struct name"
    else if !isObjType data then
      if address.toShortString = "0x1" && module = "ASCII" && name = "String" then
        Except.ok data
      else Except.error "expects data to be an object"
    else
      match parseFieldsF rec repo (objEntries data) typeParams struct.fields [] with
      | Except.error e => Except.error e
      | Except.ok proto => Except.ok (.vObj proto)
  | _ => Except.error "expects a StructTag as typeTag"

/-- The element loop of `VectorParser`. -/
def parseElementsF (rec : ParserRun) (parser : ParserCode) (elementType : TypeTag)
    (repo : AptosParserRepo) : List Value → Except String (List Value)
  | [] => Except.ok []
  | element :: rest =>
    match rec parser element elementType repo with
    | Except.error e => Except.error e
    | Except.ok v =>
      match parseElementsF rec parser elementType repo rest with
      | Except.error e => Except.error e
      | Except.ok vs => Except.ok (v :: vs)

/-- `VectorParser` of `parserRepo.ts`, parameterised by the runner used
for element decoding: `vector<u8>` is read as a hex string via
`parseVectorU8` without consulting the registry; any other element type
requires an array and dispatches per element through the registry by the
element's paramless name. -/
def VectorParserF (rec : ParserRun) (data : Value) (typeTag : TypeTag)
    (repo : AptosParserRepo) : Except String Value :=
  match typeTag with
  | .vector elementType =>
    match elementType with
    | .atomic .u8 =>
      match parseVectorU8 data with
      | Except.error e => Except.error e
      | Except.ok bytes => Except.ok (.vArr (bytes.map (fun b => .vNum (b : Rat))))
    | _ =>
      match data with
      | .vArr elements =>
        match getParserFromParamlessName repo (getTypeTagParamlessName elementType) with
        | none => Except.error "No parser exists for type"
        | some elementParser =>
          match parseElementsF rec elementParser elementType repo elements with
          | Except.error e => Except.error e
          | Except.ok vector => Except.ok (.vArr vector)
      | _ => Except.error "VectorParser expects Array type as data"
  | _ => Except.error "VectorParser cannot parse type"

/-- One interpretation step: dispatch a parser code the way the source
dispatches a registered `ParserFunc`; the generated struct parsers wrap
`parseStructProto` and the class constructor (the `static XParser`
emitted by the generator). -/
def runParserStep (rec : ParserRun) : ParserRun :=
  fun parser data typeTag repo =>
    match parser with
    | .boolP => BoolParser data typeTag repo
    | .u8P => U8Parser data typeTag repo
    | .u64P => U64Parser data typeTag repo
    | .u128P => U128Parser data typeTag repo
    | .addressP => AddressParser data typeTag repo
    | .asciiP => AsciiParser data typeTag repo
    | .vectorP => VectorParserF rec data typeTag repo
    | .structP struct =>
      match parseStructProtoF rec data typeTag repo struct with
      | Except.error e => Except.error e
      | Except.ok proto => Except.ok (struct.mkInstance proto typeTag)

/-- Fuel-bounded interpretation of a parser code; the fuel only bounds
the nesting depth of vectors/structs inside the decoded value. -/
def runParser : Nat → ParserRun
  | 0 => fun _ _ _ _ => Except.error "out of fuel"
  | Nat.succ fuel => runParserStep (runParser fuel)

/-- `parseStructProto` at a given nesting-depth bound. -/
def parseStructProto (fuel : Nat) (data : Value) (typeTag : TypeTag)
    (repo : AptosParserRepo) (struct : StructInfoType) : Except String Value :=
  parseStructProtoF (runParser fuel) data typeTag repo struct

/-- `VectorParser` at a given nesting-depth bound. -/
def VectorParser (fuel : Nat) (data : Value) (typeTag : TypeTag)
    (repo : AptosParserRepo) : Except String Value :=
  VectorParserF (runParser fuel) data typeTag repo

/-- `AptosParserRepo.parse`: registry dispatch by paramless name. -/
def AptosParserRepo.parse (fuel : Nat) (repo : AptosParserRepo) (data : Value)
    (typeTag : TypeTag) : Except String Value :=
  match getParserFromParamlessName repo (getTypeTagParamlessName typeTag) with
  | none => Except.error ("No parser registered for type: " ++ getTypeTagParamlessName typeTag)
  | some parser => runParser fuel parser data typeTag repo

/-- `AptosParserRepo.addDefaultParsers`. -/
def addDefaultParsers (repo : AptosParserRepo) : AptosParserRepo :=
  let repo := addParser repo "bool" .boolP
  let repo := addParser repo "u8" .u8P
  let repo := addParser repo "u64" .u64P
  let repo := addParser repo "u128" .u128P
  let repo := addParser repo "address" .addressP
  let repo := addParser repo "vector" .vectorP
  addParser repo "0x1::ASCII::String" .asciiP

/-- The registry holding exactly the default parsers. -/
def defaultRepo : AptosParserRepo :=
  addDefaultParsers ⟨[]⟩

/-- The external network client consumed by the cache: a single-resource
fetch and a whole-account fetch, each of which may fail. -/
structure ResourceEntry where
  type : String
  data : Value

/-- The `AptosClient` capability as the cache uses it. -/
structure AptosClient where
  getAccountResource : HexString → String → Except String Value
  getAccountResources : HexString → Except String (List ResourceEntry)

/-- `AptosParserRepo.loadResource`: arity check, concrete tag
construction (from `structTsType.name`), network fetch by full name,
struct decode, class construction. -/
def AptosParserRepo.loadResource (fuel : Nat) (repo : AptosParserRepo)
    (client : AptosClient) (address : HexString) (structTsType : StructInfoType)
    (typeParams : List TypeTag) : Except String Value :=
  if structTsType.typeParameters.length ≠ typeParams.length then
    Except.error "Unexpected number of type parameters"
  else
    let typeTag := TypeTag.structTag structTsType.moduleAddress structTsType.moduleName
      structTsType.name typeParams
    match client.getAccountResource address (getTypeTagFullname typeTag) with
    | Except.error e => Except.error e
    | Except.ok data =>
      match parseStructProto fuel data typeTag repo structTsType with
      | Except.error e => Except.error e
      | Except.ok proto => Except.ok (structTsType.mkInstance proto typeTag)

/-- `UpdateType` of `aptosResourceCache.ts`. -/
inductive UpdateType where
  | update
  | delete
deriving DecidableEq, Repr

/-- `ListenerType`: an identity string plus a callback; the callback
function itself is opaque, so it is represented by a numeric label. -/
structure ListenerType where
  id : String
  callbackTag : Nat
deriving DecidableEq, Repr

/-- One observed callback invocation: which key's notification loop
fired, which listener record, and the `(type, value)` arguments the
callback received (`none` models the `null` payload of deletions). -/
structure CacheEvent where
  resourceKey : String
  listener : ListenerType
  kind : UpdateType
  value : Option Value

/-- The load-replay tuple recorded by `load`. -/
def LoadParams : Type := StructInfoType × HexString × List TypeTag

/-- The mutable state of an `AptosResourceCache` instance. -/
structure CacheState where
  cachedResources : List (String × Value)
  resourceKeyToLoadParams : List (String × LoadParams)
  updateListener : List (String × List ListenerType)
  watchedAddresses : List HexString

/-- The listener list registered for a key (`[]` when absent, as the
notification loops treat a missing entry). -/
def listenersOf (st : CacheState) (resourceKey : String) : List ListenerType :=
  (alookup resourceKey st.updateListener).getD []

namespace AptosResourceCache

/-- `getResourceKey`: owner address and full type name. -/
def getResourceKey (ownerAddress : HexString) (typeTag : TypeTag) : String :=
  ownerAddress.hex ++ "/" ++ getTypeTagFullname typeTag

/-- `addListenerForResource`: ensure the key's list exists, return
unchanged when a listener with the same id is already registered,
otherwise append. -/
def addListenerForResource (st : CacheState) (resourceKey : String)
    (listener : ListenerType) : CacheState :=
  let registered := listenersOf st resourceKey
  if registered.any (fun r => r.id == listener.id) then st
  else { st with
    updateListener := upsert resourceKey (registered ++ [listener]) st.updateListener }

/-- `updateResource`: store the value and notify every listener of the
key, in registration order, with `('update', value)`. -/
def updateResource (st : CacheState) (resourceKey : String) (value : Value) :
    CacheState × List CacheEvent :=
  ({ st with cachedResources := upsert resourceKey value st.cachedResources },
   (listenersOf st resourceKey).map
     (fun l => ⟨resourceKey, l, UpdateType.update, some value⟩))

/-- `deleteResource`: remove the key and notify every listener of the
key, in registration order, with `('delete', null)`. -/
def deleteResource (st : CacheState) (resourceKey : String) :
    CacheState × List CacheEvent :=
  ({ st with cachedResources := aerase resourceKey st.cachedResources },
   (listenersOf st resourceKey).map
     (fun l => ⟨resourceKey, l, UpdateType.delete, none⟩))

/-- `load`: fetch and decode via `loadResource`; on failure nothing is
touched and the error propagates. On success, upsert (silently on a new
key, with update notifications on an existing one), record the replay
tuple, and register the listener when given. Returns the final state,
the emitted events and the call's result. -/
def load (fuel : Nat) (client : AptosClient) (repo : AptosParserRepo)
    (st : CacheState) (struct : StructInfoType) (address : HexString)
    (typeParams : List TypeTag) (listener : Option ListenerType) :
    CacheState × List CacheEvent × Except String Value :=
  match AptosParserRepo.loadResource fuel repo client address struct typeParams with
  | Except.error e => (st, [], Except.error e)
  | Except.ok loaded =>
    let typeTag := TypeTag.structTag struct.moduleAddress struct.moduleName
      struct.structName typeParams
    let resourceKey := getResourceKey address typeTag
    let stev :=
      if (alookup resourceKey st.cachedResources).isSome then
        updateResource st resourceKey loaded
      else
        ({ st with cachedResources := upsert resourceKey loaded st.cachedResources }, [])
    let st2 := { stev.1 with
      resourceKeyToLoadParams :=
        upsert resourceKey (struct, address, typeParams) stev.1.resourceKeyToLoadParams }
    let st3 :=
      match listener with
      | some l => addListenerForResource st2 resourceKey l
      | none => st2
    (st3, stev.2, Except.ok loaded)

/-- The per-entry loop of `loadAccount`. The type-string parse sits
outside the `try` block, so its failure aborts the loop (keeping the
mutations already made and discarding the collected keys); a decode
failure inside the `try` is logged and skipped. -/
def loadAccountLoop (fuel : Nat) (repo : AptosParserRepo) (address : HexString)
    (listener : Option ListenerType) (st : CacheState) :
    List ResourceEntry → CacheState × List CacheEvent × Except String (List String)
  | [] => (st, [], Except.ok [])
  | resource :: rest =>
    match parseTypeTagOrThrow resource.type with
    | Except.error e => (st, [], Except.error e)
    | Except.ok typeTag =>
      match AptosParserRepo.parse fuel repo resource.data typeTag with
      | Except.error _ => loadAccountLoop fuel repo address listener st rest
      | Except.ok value =>
        let resourceKey := getResourceKey address typeTag
        let stev :=
          if (alookup resourceKey st.cachedResources).isSome then
            updateResource st resourceKey value
          else
            ({ st with cachedResources := upsert resourceKey value st.cachedResources }, [])
        let st2 :=
          match listener with
          | some l => addListenerForResource stev.1 resourceKey l
          | none => stev.1
        let res := loadAccountLoop fuel repo address listener st2 rest
        (res.1, stev.2 ++ res.2.1, res.2.2.map (fun keys => resourceKey :: keys))

/-- `loadAccount`: fetch the account's resource list, run the entry loop,
and mark the address watched once the loop finishes without an escaping
error. -/
def loadAccount (fuel : Nat) (client : AptosClient) (repo : AptosParserRepo)
    (st : CacheState) (address : HexString) (listener : Option ListenerType) :
    CacheState × List CacheEvent × Except String (List String) :=
  match client.getAccountResources address with
  | Except.error e => (st, [], Except.error e)
  | Except.ok resources =>
    let res := loadAccountLoop fuel repo address listener st resources
    match res.2.2 with
    | Except.error e => (res.1, res.2.1, Except.error e)
    | Except.ok keys =>
      ({ res.1 with
          watchedAddresses :=
            if address ∈ res.1.watchedAddresses then res.1.watchedAddresses
            else res.1.watchedAddresses ++ [address] },
       res.2.1, Except.ok keys)

end AptosResourceCache

/-- One entry of a confirmed transaction's change-set, as the cache
inspects it: `write_resource` carries an owner address, a type string
and raw data; `delete_resource` carries an owner address and a resource
type string; every other change kind is ignored. -/
inductive TxChange where
  | writeResource (address : String) (type : String) (data : Value)
  | deleteResource (address : String) (resource : String)
  | otherChange

/-- The fields of `Types.UserTransaction` that
`updateFromTransactionResult` reads. -/
structure UserTransaction where
  success : Bool
  hash : String
  changes : List TxChange

namespace AptosResourceCache

/-- Application of one change-set entry (the body of the loop in
`updateFromTransactionResult`): a thrown type-string parse or decode
error escapes; a change for an uncached key is a no-op. -/
def applyTxChange (fuel : Nat) (repo : AptosParserRepo) (st : CacheState) :
    TxChange → Except String (CacheState × List CacheEvent)
  | .writeResource address type data =>
    match parseTypeTagOrThrow type with
    | Except.error e => Except.error e
    | Except.ok typeTag =>
      let resourceKey := getResourceKey (HexString.fromString address) typeTag
      if (alookup resourceKey st.cachedResources).isSome then
        match AptosParserRepo.parse fuel repo data typeTag with
        | Except.error e => Except.error e
        | Except.ok newValue => Except.ok (updateResource st resourceKey newValue)
      else Except.ok (st, [])
  | .deleteResource address resource =>
    match parseTypeTagOrThrow resource with
    | Except.error e => Except.error e
    | Except.ok typeTag =>
      let resourceKey := getResourceKey (HexString.fromString address) typeTag
      if (alookup resourceKey st.cachedResources).isSome then
        Except.ok (deleteResource st resourceKey)
      else Except.ok (st, [])
  | .otherChange => Except.ok (st, [])

/-- The change-set loop of `updateFromTransactionResult`. -/
def updateFromTxLoop (fuel : Nat) (repo : AptosParserRepo) (st : CacheState) :
    List TxChange → CacheState × List CacheEvent × Except String Unit
  | [] => (st, [], Except.ok ())
  | change :: rest =>
    match applyTxChange fuel repo st change with
    | Except.error e => (st, [], Except.error e)
    | Except.ok (st1, evs1) =>
      let res := updateFromTxLoop fuel repo st1 rest
      (res.1, evs1 ++ res.2.1, res.2.2)

/-- `updateFromTransactionResult`: applies the change-set only when the
transaction succeeded and its hash is not the null sentinel `'0x0'`. -/
def updateFromTransactionResult (fuel : Nat) (repo : AptosParserRepo)
    (st : CacheState) (txn : UserTransaction) :
    CacheState × List CacheEvent × Except String Unit :=
  if txn.success && txn.hash != "0x0" then
    updateFromTxLoop fuel repo st txn.changes
  else (st, [], Except.ok ())

end AptosResourceCache

theorem alookup_upsert_self {α : Type} (k : String) (v : α) (l : List (String × α)) :
    alookup k (upsert k v l) = some v := by
  induction l with
  | nil => simp [alookup, upsert]
  | cons p rest ih =>
    by_cases h : p.1 = k
    · simp [alookup, upsert, h]
    · simp [alookup, upsert, h, ih]

theorem alookup_upsert_ne {α : Type} {k k2 : String} (h : k ≠ k2) (v : α)
    (l : List (String × α)) : alookup k (upsert k2 v l) = alookup k l := by
  have h2k : ¬(k2 = k) := fun hh => h hh.symm
  induction l with
  | nil => simp [alookup, upsert, h2k]
  | cons p rest ih =>
    by_cases h2 : p.1 = k2
    · have hpk : ¬(p.1 = k) := by rw [h2]; exact h2k
      simp [alookup, upsert, h2, h2k, hpk]
    · by_cases hpk : p.1 = k <;> simp [alookup, upsert, h2, hpk, ih, h2k, h]

theorem alookup_upsert_isSome {α : Type} (k k2 : String) (v : α) (l : List (String × α))
    (h : (alookup k l).isSome = true) : (alookup k (upsert k2 v l)).isSome = true := by
  by_cases hk : k = k2
  · subst hk
    simp [alookup_upsert_self]
  · rw [alookup_upsert_ne hk]
    exact h

theorem alookup_aerase_self {α : Type} (k : String) (l : List (String × α)) :
    alookup k (aerase k l) = none := by
  induction l with
  | nil => simp [alookup, aerase]
  | cons p rest ih =>
    by_cases h : p.1 = k <;> simp [aerase, alookup, h, ih]

theorem alookup_aerase_ne {α : Type} {k k2 : String} (h : k ≠ k2) (l : List (String × α)) :
    alookup k (aerase k2 l) = alookup k l := by
  have h2k : ¬(k2 = k) := fun hh => h hh.symm
  induction l with
  | nil => simp [aerase]
  | cons p rest ih =>
    by_cases h2 : p.1 = k2
    · have hpk : ¬(p.1 = k) := by rw [h2]; exact h2k
      simp [aerase, alookup, h2, hpk, ih, h2k]
    · by_cases hpk : p.1 = k <;> simp [aerase, alookup, h2, hpk, ih, h2k, h]

/-- A cache with nothing loaded, as the constructor builds it. -/
def emptyCache : CacheState := ⟨[], [], [], []⟩

/-- A sample generated schema: one generic parameter, one field declared
with that parameter, class constructor returning the proto unchanged. -/
def sampleStruct : StructInfoType :=
  { moduleAddress := ⟨"0x2"⟩, moduleName := "M", name := "S", structName := "S",
    typeParameters := [⟨"T", false⟩], fields := [⟨"v", .typeParamIdx 0⟩],
    mkInstance := fun p _ => p }

/-- A network client serving fixed data. -/
def sampleClient : AptosClient :=
  { getAccountResource := fun _ _ => Except.ok (.vObj [("v", .vStr "7")]),
    getAccountResources := fun _ => Except.ok
      [⟨"u64", .vStr "5"⟩, ⟨"u8", .vNum 300⟩, ⟨"bool", .vBool true⟩] }

/-- A network client whose fetches fail. -/
def failClient : AptosClient :=
  { getAccountResource := fun _ _ => Except.error "network failure",
    getAccountResources := fun _ => Except.error "network failure" }

/-- C1: a transaction result with `success` false or with the null hash
sentinel `'0x0'` (the `Types.UserTransaction` hash is a string; the code
represents the absent hash by `'0x0'`) leaves every component of the
cache state unchanged and fires no listener callback; equivalently,
`updateFromTransactionResult` touches the cache only when the
transaction succeeded and its hash is non-null. -/
theorem updateFromTransactionResult_skips_failed_or_null_hash
    (fuel : Nat) (repo : AptosParserRepo) (st : CacheState) (txn : UserTransaction)
    (h : txn.success = false ∨ txn.hash = "0x0") :
    AptosResourceCache.updateFromTransactionResult fuel repo st txn
      = (st, [], Except.ok ()) := by
  unfold AptosResourceCache.updateFromTransactionResult
  rcases h with h | h <;> simp [h]

/-- Witness for C1 at a concrete failed transaction and a concrete
null-hash transaction. -/
theorem updateFromTransactionResult_skips_failed_or_null_hash_witness :
    AptosResourceCache.updateFromTransactionResult 1 defaultRepo emptyCache
        ⟨false, "0xabc", [TxChange.deleteResource "0xa" "u64"]⟩
      = (emptyCache, [], Except.ok ()) ∧
    AptosResourceCache.updateFromTransactionResult 1 defaultRepo emptyCache
        ⟨true, "0x0", [TxChange.deleteResource "0xa" "u64"]⟩
      = (emptyCache, [], Except.ok ()) :=
  ⟨updateFromTransactionResult_skips_failed_or_null_hash 1 defaultRepo emptyCache
      ⟨false, "0xabc", [TxChange.deleteResource "0xa" "u64"]⟩ (Or.inl rfl),
   updateFromTransactionResult_skips_failed_or_null_hash 1 defaultRepo emptyCache
      ⟨true, "0x0", [TxChange.deleteResource "0xa" "u64"]⟩ (Or.inr rfl)⟩

/-- C10: when the fetch-and-decode step of `load` fails — the network
fetch and the struct decode are the two fallible stages of
`AptosParserRepo.loadResource`, and `load` performs no mutation before
awaiting it — the error propagates and the returned state is exactly
the input state: `cachedResources`, `resourceKeyToLoadParams` and
`updateListener` keep their entries, no replay tuple is recorded, no
listener is registered, and no callback fires. -/
theorem load_propagates_error_without_mutation
    (fuel : Nat) (client : AptosClient) (repo : AptosParserRepo) (st : CacheState)
    (struct : StructInfoType) (address : HexString) (typeParams : List TypeTag)
    (listener : Option ListenerType) (e : String)
    (h : AptosParserRepo.loadResource fuel repo client address struct typeParams
      = Except.error e) :
    AptosResourceCache.load fuel client repo st struct address typeParams listener
      = (st, [], Except.error e) := by
  unfold AptosResourceCache.load
  rw [h]

/-- Witness for C10 at a failing network client. -/
theorem load_propagates_error_without_mutation_witness :
    AptosParserRepo.loadResource 2 defaultRepo failClient ⟨"0xa"⟩ sampleStruct
        [.atomic .u64] = Except.error "network failure" ∧
    AptosResourceCache.load 2 failClient defaultRepo emptyCache sampleStruct ⟨"0xa"⟩
        [.atomic .u64] (some ⟨"L1", 0⟩) = (emptyCache, [], Except.error "network failure") :=
  ⟨rfl,
   load_propagates_error_without_mutation 2 failClient defaultRepo emptyCache sampleStruct
     ⟨"0xa"⟩ [.atomic .u64] (some ⟨"L1", 0⟩) "network failure" rfl⟩

theorem addListenerForResource_cachedResources (st : CacheState) (k : String)
    (l : ListenerType) :
    (AptosResourceCache.addListenerForResource st k l).cachedResources
      = st.cachedResources := by
  by_cases h : ((listenersOf st k).any fun r => r.id == l.id) = true <;>
    simp [AptosResourceCache.addListenerForResource, h]

theorem addListenerForResource_watchedAddresses (st : CacheState) (k : String)
    (l : ListenerType) :
    (AptosResourceCache.addListenerForResource st k l).watchedAddresses
      = st.watchedAddresses := by
  by_cases h : ((listenersOf st k).any fun r => r.id == l.id) = true <;>
    simp [AptosResourceCache.addListenerForResource, h]

/-- C3: when the fetch-and-decode of `load` yields a value, a key not
yet cached is inserted with no listener callback, while a key already
cached is overwritten and every listener registered for it is called
back exactly once, in registration order, with `('update', newValue)`. -/
theorem load_silent_insert_and_notifying_update
    (fuel : Nat) (client : AptosClient) (repo : AptosParserRepo) (st : CacheState)
    (struct : StructInfoType) (address : HexString) (typeParams : List TypeTag)
    (listener : Option ListenerType) (loaded : Value) (key : String)
    (res : CacheState × List CacheEvent × Except String Value)
    (h : AptosParserRepo.loadResource fuel repo client address struct typeParams
      = Except.ok loaded)
    (hkey : key = AptosResourceCache.getResourceKey address
      (TypeTag.structTag struct.moduleAddress struct.moduleName struct.structName typeParams))
    (hres : res = AptosResourceCache.load fuel client repo st struct address typeParams
      listener) :
    (alookup key st.cachedResources = none →
      res.2.1 = [] ∧ alookup key res.1.cachedResources = some loaded
        ∧ res.2.2 = Except.ok loaded)
    ∧ ((alookup key st.cachedResources).isSome = true →
      res.2.1 = (listenersOf st key).map
          (fun l => ⟨key, l, UpdateType.update, some loaded⟩)
        ∧ alookup key res.1.cachedResources = some loaded
        ∧ res.2.2 = Except.ok loaded) := by
  subst hkey
  subst hres
  unfold AptosResourceCache.load
  rw [h]
  constructor
  · intro hnone
    cases listener <;>
      simp [hnone, AptosResourceCache.updateResource,
        addListenerForResource_cachedResources, alookup_upsert_self]
  · intro hsome
    cases listener <;>
      simp [hsome, AptosResourceCache.updateResource,
        addListenerForResource_cachedResources, alookup_upsert_self]

/-- The value `sampleClient`'s single-resource fetch decodes to under
`sampleStruct` instantiated at `u64`. -/
def loadedSample : Value := .vObj [("v", .vBigInt 7)]

/-- The resource key of `sampleStruct` instantiated at `u64`, owned by
`0xa`. -/
def sampleKey : String := "0xa/0x2::M::S<u64>"

/-- A cache that already holds `sampleKey`, with one listener on it. -/
def sampleCachedState : CacheState :=
  ⟨[(sampleKey, .vNull)], [], [(sampleKey, [⟨"L1", 0⟩])], []⟩

/-- Witness for C3: a first `load` of a fresh key fires no callback and
caches the value; a second `load` of the now-cached key fires the
registered listener once with the update payload. -/
theorem load_silent_insert_and_notifying_update_witness :
    ((AptosResourceCache.load 2 sampleClient defaultRepo emptyCache sampleStruct ⟨"0xa"⟩
        [.atomic .u64] (some ⟨"L1", 0⟩)).2.1 = []
      ∧ alookup sampleKey (AptosResourceCache.load 2 sampleClient defaultRepo emptyCache
          sampleStruct ⟨"0xa"⟩ [.atomic .u64] (some ⟨"L1", 0⟩)).1.cachedResources
        = some loadedSample
      ∧ (AptosResourceCache.load 2 sampleClient defaultRepo emptyCache sampleStruct ⟨"0xa"⟩
          [.atomic .u64] (some ⟨"L1", 0⟩)).2.2 = Except.ok loadedSample)
    ∧ ((AptosResourceCache.load 2 sampleClient defaultRepo sampleCachedState sampleStruct
        ⟨"0xa"⟩ [.atomic .u64] none).2.1
      = (listenersOf sampleCachedState sampleKey).map
          (fun l => ⟨sampleKey, l, UpdateType.update, some loadedSample⟩)
      ∧ alookup sampleKey (AptosResourceCache.load 2 sampleClient defaultRepo
          sampleCachedState sampleStruct ⟨"0xa"⟩ [.atomic .u64] none).1.cachedResources
        = some loadedSample
      ∧ (AptosResourceCache.load 2 sampleClient defaultRepo sampleCachedState sampleStruct
          ⟨"0xa"⟩ [.atomic .u64] none).2.2 = Except.ok loadedSample) :=
  ⟨(load_silent_insert_and_notifying_update 2 sampleClient defaultRepo emptyCache
      sampleStruct ⟨"0xa"⟩ [.atomic .u64] (some ⟨"L1", 0⟩) loadedSample sampleKey _
      rfl rfl rfl).1 rfl,
   (load_silent_insert_and_notifying_update 2 sampleClient defaultRepo sampleCachedState
      sampleStruct ⟨"0xa"⟩ [.atomic .u64] none loadedSample sampleKey _
      rfl rfl rfl).2 rfl⟩

/-- C8: registering a listener whose id equals an already-registered
listener's id leaves the cache state (and in particular the listener
list) unchanged; registering a fresh id appends it at the end, so the
notification loops of `updateResource` and `deleteResource`, which map
over the registered list, fire the callbacks in registration order. -/
theorem addListenerForResource_dedup_and_notification_order
    (st : CacheState) (k : String) (l : ListenerType) (v : Value) :
    ((∃ r ∈ listenersOf st k, r.id = l.id) →
        AptosResourceCache.addListenerForResource st k l = st)
    ∧ ((∀ r ∈ listenersOf st k, r.id ≠ l.id) →
        listenersOf (AptosResourceCache.addListenerForResource st k l) k
          = listenersOf st k ++ [l])
    ∧ (AptosResourceCache.updateResource st k v).2
        = (listenersOf st k).map (fun r => ⟨k, r, UpdateType.update, some v⟩)
    ∧ (AptosResourceCache.deleteResource st k).2
        = (listenersOf st k).map (fun r => ⟨k, r, UpdateType.delete, none⟩) := by
  refine ⟨?_, ?_, rfl, rfl⟩
  · rintro ⟨r, hr, hid⟩
    have hany : ((listenersOf st k).any fun r2 => r2.id == l.id) = true := by
      rw [List.any_eq_true]
      exact ⟨r, hr, by simp [hid]⟩
    simp [AptosResourceCache.addListenerForResource, hany]
  · intro hall
    have hex : ¬∃ x ∈ (alookup k st.updateListener).getD [], x.id = l.id := by
      rintro ⟨r, hr, hid⟩
      exact hall r hr hid
    simp [AptosResourceCache.addListenerForResource, listenersOf,
      alookup_upsert_self, hex]

/-- Witness for C8: re-registering the id `L1` (with a different
callback) is a no-op; registering the fresh id `L2` appends it. -/
theorem addListenerForResource_dedup_and_notification_order_witness :
    AptosResourceCache.addListenerForResource sampleCachedState sampleKey ⟨"L1", 7⟩
      = sampleCachedState
    ∧ listenersOf (AptosResourceCache.addListenerForResource sampleCachedState sampleKey
        ⟨"L2", 7⟩) sampleKey = listenersOf sampleCachedState sampleKey ++ [⟨"L2", 7⟩]
    ∧ (AptosResourceCache.updateResource sampleCachedState sampleKey (.vBool true)).2
      = (listenersOf sampleCachedState sampleKey).map
          (fun r => ⟨sampleKey, r, UpdateType.update, some (.vBool true)⟩) :=
  ⟨(addListenerForResource_dedup_and_notification_order sampleCachedState sampleKey
      ⟨"L1", 7⟩ (.vBool true)).1 ⟨⟨"L1", 0⟩, by simp [sampleCachedState, listenersOf,
        alookup, sampleKey], rfl⟩,
   (addListenerForResource_dedup_and_notification_order sampleCachedState sampleKey
      ⟨"L2", 7⟩ (.vBool true)).2.1 (by
        intro r hr
        simp [sampleCachedState, listenersOf, alookup, sampleKey] at hr
        simp [hr]),
   (addListenerForResource_dedup_and_notification_order sampleCachedState sampleKey
      ⟨"L2", 7⟩ (.vBool true)).2.2.1⟩

/-- C7: when the identity checks of `parseStructProto` pass and the raw
value is not a JS object, the well-known `0x1::ASCII::String` library
type returns the raw value verbatim, and every other struct type
raises. -/
theorem parseStructProto_bare_ascii_string
    (fuel : Nat) (repo : AptosParserRepo) (struct : StructInfoType) (addr : HexString)
    (m n : String) (ps : List TypeTag) (data : Value)
    (h1 : addr.hex = struct.moduleAddress.hex) (h2 : m = struct.moduleName)
    (h3 : n = struct.name) (h4 : isObjType data = false) :
    ((addr.toShortString = "0x1" ∧ m = "ASCII" ∧ n = "String") →
      parseStructProto fuel data (.structTag addr m n ps) repo struct = Except.ok data)
    ∧ (¬(addr.toShortString = "0x1" ∧ m = "ASCII" ∧ n = "String") →
      ∃ e, parseStructProto fuel data (.structTag addr m n ps) repo struct
        = Except.error e) := by
  constructor
  · rintro ⟨ha, hm, hn⟩
    simp [parseStructProto, parseStructProtoF, h1, h2, h3, h4, ha, hm, hn]
    exact ⟨by rw [← h2]; exact hm, by rw [← h3]; exact hn⟩
  · intro hno
    refine ⟨"expects data to be an object", ?_⟩
    simp only [parseStructProto, parseStructProtoF, h1, h2, h3, h4]
    simp only [ne_eq, not_true_eq_false, if_false, Bool.not_false, if_true]
    split
    · rename_i hcond
      rcases (by simpa using hcond :
          (addr.toShortString = "0x1" ∧ struct.moduleName = "ASCII")
            ∧ struct.name = "String") with ⟨⟨c1, c2⟩, c3⟩
      exact absurd ⟨c1, h2.trans c2, h3.trans c3⟩ hno
    · rfl

/-- The library string schema (`0x1::ASCII::String`). -/
def asciiStruct : StructInfoType :=
  { moduleAddress := ⟨"0x1"⟩, moduleName := "ASCII", name := "String",
    structName := "String", typeParameters := [], fields := [],
    mkInstance := fun p _ => p }

/-- Witness for C7: `"hello"` decodes verbatim against the ASCII string
schema and raises against `sampleStruct`. -/
theorem parseStructProto_bare_ascii_string_witness :
    parseStructProto 1 (.vStr "hello") (.structTag ⟨"0x1"⟩ "ASCII" "String" [])
        defaultRepo asciiStruct = Except.ok (.vStr "hello")
    ∧ ∃ e, parseStructProto 1 (.vStr "hello") (.structTag ⟨"0x2"⟩ "M" "S" [])
        defaultRepo sampleStruct = Except.error e :=
  ⟨(parseStructProto_bare_ascii_string 1 defaultRepo asciiStruct ⟨"0x1"⟩ "ASCII" "String"
      [] (.vStr "hello") rfl rfl rfl rfl).1 ⟨rfl, rfl, rfl⟩,
   (parseStructProto_bare_ascii_string 1 defaultRepo sampleStruct ⟨"0x2"⟩ "M" "S"
      [] (.vStr "hello") rfl rfl rfl rfl).2 (by decide)⟩

theorem parseFieldsF_lookup_frame (rec : ParserRun) (repo : AptosParserRepo)
    (entries : List (String × Value)) (ps : List TypeTag) (fields : List FieldDeclType) :
    ∀ acc proto, parseFieldsF rec repo entries ps fields acc = Except.ok proto →
      ∀ k2, k2 ∉ fields.map FieldDeclType.name → alookup k2 proto = alookup k2 acc := by
  induction fields with
  | nil =>
    intro acc proto h k2 _
    simp [parseFieldsF] at h
    rw [h]
  | cons f rest ih =>
    intro acc proto h k2 hk2
    unfold parseFieldsF at h
    cases halo : alookup f.name entries with
    | none => simp only [halo] at h; exact Except.noConfusion h
    | some raw =>
      simp only [halo] at h
      cases hres : resolveFieldTag f.typeTag ps with
      | none => simp only [hres] at h; exact Except.noConfusion h
      | some ftag =>
        simp only [hres] at h
        cases hpar : getParserFromTypeTag repo ftag with
        | none => simp only [hpar] at h; exact Except.noConfusion h
        | some code =>
          simp only [hpar] at h
          cases hrun : rec code raw ftag repo with
          | error e => simp only [hrun] at h; exact Except.noConfusion h
          | ok v =>
            simp only [hrun] at h
            have hk2s : k2 ≠ f.name ∧ k2 ∉ rest.map FieldDeclType.name := by
              simpa using hk2
            rw [ih (upsert f.name v acc) proto h k2 hk2s.2,
              alookup_upsert_ne hk2s.1]

theorem parseFieldsF_mem (rec : ParserRun) (repo : AptosParserRepo)
    (entries : List (String × Value)) (ps : List TypeTag) (fields : List FieldDeclType) :
    ∀ acc proto (fname : String) (decl : TypeTag),
      parseFieldsF rec repo entries ps fields acc = Except.ok proto →
      (⟨fname, decl⟩ : FieldDeclType) ∈ fields →
      (fields.map FieldDeclType.name).Nodup →
      ∃ raw ftag code v,
        alookup fname entries = some raw
        ∧ resolveFieldTag decl ps = some ftag
        ∧ getParserFromTypeTag repo ftag = some code
        ∧ rec code raw ftag repo = Except.ok v
        ∧ alookup fname proto = some v := by
  induction fields with
  | nil =>
    intro acc proto fname decl _ hmem _
    simp at hmem
  | cons f rest ih =>
    intro acc proto fname decl h hmem hnodup
    unfold parseFieldsF at h
    cases halo : alookup f.name entries with
    | none => simp only [halo] at h; exact Except.noConfusion h
    | some raw =>
      simp only [halo] at h
      cases hres : resolveFieldTag f.typeTag ps with
      | none => simp only [hres] at h; exact Except.noConfusion h
      | some ftag =>
        simp only [hres] at h
        cases hpar : getParserFromTypeTag repo ftag with
        | none => simp only [hpar] at h; exact Except.noConfusion h
        | some code =>
          simp only [hpar] at h
          cases hrun : rec code raw ftag repo with
          | error e => simp only [hrun] at h; exact Except.noConfusion h
          | ok v =>
            simp only [hrun] at h
            rcases List.mem_cons.mp hmem with heq | hmemr
            · cases heq
              have hfresh : fname ∉ rest.map FieldDeclType.name := by
                have := hnodup
                simp only [List.map_cons] at this
                exact (List.nodup_cons.mp this).1
              refine ⟨raw, ftag, code, v, halo, hres, hpar, hrun, ?_⟩
              rw [parseFieldsF_lookup_frame rec repo entries ps rest _ proto h
                fname hfresh, alookup_upsert_self]
            · exact ih (upsert f.name v acc) proto fname decl h hmemr
                (by simpa using (List.nodup_cons.mp (by simpa using hnodup)).2)

/-- C2: for a raw object decoded against a schema under a concrete
struct tag, each schema field declared as `TypeParamIdx i` is decoded
with the decoder resolved (by paramless name) from
`concreteTypeTag.typeParams[i]`, and each field declared with a
concrete type is decoded with that declared type as-is: the proto's
entry for the field is the output of the resolved decoder, run on the
field's raw value at the substituted concrete tag. -/
theorem parseStructProto_substitutes_type_params
    (fuel : Nat) (repo : AptosParserRepo) (struct : StructInfoType) (addr : HexString)
    (m n : String) (ps : List TypeTag) (entries proto : List (String × Value))
    (fname : String) (decl : TypeTag)
    (hok : parseStructProto fuel (.vObj entries) (.structTag addr m n ps) repo struct
      = Except.ok (.vObj proto))
    (hmem : (⟨fname, decl⟩ : FieldDeclType) ∈ struct.fields)
    (hnodup : (struct.fields.map FieldDeclType.name).Nodup) :
    (∃ raw ftag code v,
      alookup fname entries = some raw
      ∧ resolveFieldTag decl ps = some ftag
      ∧ getParserFromTypeTag repo ftag = some code
      ∧ runParser fuel code raw ftag repo = Except.ok v
      ∧ alookup fname proto = some v)
    ∧ (∀ i, resolveFieldTag (TypeTag.typeParamIdx i) ps = ps[i]?)
    ∧ (∀ t : TypeTag, (∀ i, t ≠ TypeTag.typeParamIdx i) → resolveFieldTag t ps = some t) := by
  refine ⟨?_, fun i => rfl, ?_⟩
  · unfold parseStructProto parseStructProtoF at hok
    simp only [isObjType, Bool.not_true, Bool.false_eq_true, if_false] at hok
    split at hok
    · simp at hok
    · split at hok
      · simp at hok
      · split at hok
        · simp at hok
        · cases hpf : parseFieldsF (runParser fuel) repo (objEntries (.vObj entries)) ps
            struct.fields [] with
          | error e => rw [hpf] at hok; simp at hok
          | ok proto2 =>
            rw [hpf] at hok
            simp only [Except.ok.injEq, Value.vObj.injEq] at hok
            subst hok
            exact parseFieldsF_mem (runParser fuel) repo entries ps struct.fields
              [] proto2 fname decl hpf hmem hnodup
  · intro t ht
    cases t with
    | typeParamIdx i => exact absurd rfl (ht i)
    | atomic a => rfl
    | vector e => rfl
    | structTag a m2 n2 ps2 => rfl

/-- Witness for C2: decoding `{v: "123"}` against `sampleStruct` (whose
field `v` is declared `TypeParamIdx 0`) under the concrete tag
`0x2::M::S<u64>`: the field is decoded by the `u64` decoder resolved
from `typeParams[0]`, yielding the big-integer `123`. -/
theorem parseStructProto_substitutes_type_params_witness :
    parseStructProto 2 (.vObj [("v", .vStr "123")]) (.structTag ⟨"0x2"⟩ "M" "S"
        [.atomic .u64]) defaultRepo sampleStruct = Except.ok (.vObj [("v", .vBigInt 123)])
    ∧ ((∃ raw ftag code v,
        alookup "v" [("v", Value.vStr "123")] = some raw
        ∧ resolveFieldTag (TypeTag.typeParamIdx 0) [TypeTag.atomic .u64] = some ftag
        ∧ getParserFromTypeTag defaultRepo ftag = some code
        ∧ runParser 2 code raw ftag defaultRepo = Except.ok v
        ∧ alookup "v" [("v", Value.vBigInt 123)] = some v)
      ∧ (∀ i, resolveFieldTag (TypeTag.typeParamIdx i) [TypeTag.atomic .u64]
          = [TypeTag.atomic AtomicTypeTag.u64][i]?)
      ∧ (∀ t : TypeTag, (∀ i, t ≠ TypeTag.typeParamIdx i) →
          resolveFieldTag t [TypeTag.atomic .u64] = some t)) :=
  ⟨rfl,
   parseStructProto_substitutes_type_params 2 defaultRepo sampleStruct ⟨"0x2"⟩ "M" "S"
     [.atomic .u64] [("v", .vStr "123")] [("v", .vBigInt 123)] "v" (.typeParamIdx 0)
     rfl (by simp [sampleStruct]) (by simp [sampleStruct])⟩

theorem hexDigitVal_isSome (c : Char) (h : isHexDigitChar c = true) :
    ∃ v, hexDigitVal c = some v := by
  by_cases h1 : c.isDigit = true
  · exact ⟨c.toNat - 48, by simp [hexDigitVal, h1]⟩
  · by_cases h2 : ('a' ≤ c && c ≤ 'f') = true
    · exact ⟨c.toNat - 87, by simp [hexDigitVal, h1, h2]⟩
    · have h3 : ('A' ≤ c && c ≤ 'F') = true := by
        simp [isHexDigitChar, h1, h2] at h
        simpa using h
      exact ⟨c.toNat - 55, by simp [hexDigitVal, h1, h2, h3]⟩

theorem hexToBytes_length : ∀ (digits : List Char),
    digits.all isHexDigitChar = true →
    (hexToBytes digits).length = digits.length / 2
  | [], _ => by simp [hexToBytes]
  | [c], _ => by simp [hexToBytes]
  | c1 :: c2 :: rest, hall => by
    have h1 : isHexDigitChar c1 = true := by
      simp only [List.all_cons, Bool.and_eq_true] at hall; exact hall.1
    have h2 : isHexDigitChar c2 = true := by
      simp only [List.all_cons, Bool.and_eq_true] at hall; exact hall.2.1
    have hrest : rest.all isHexDigitChar = true := by
      simp only [List.all_cons, Bool.and_eq_true] at hall; exact hall.2.2
    obtain ⟨v1, hv1⟩ := hexDigitVal_isSome c1 h1
    obtain ⟨v2, hv2⟩ := hexDigitVal_isSome c2 h2
    have hr := hexToBytes_length rest hrest
    simp [hexToBytes, hv1, hv2, hr]
    omega

theorem hexToBytes_getElem : ∀ (i : Nat) (digits : List Char),
    digits.all isHexDigitChar = true → 2 * i + 1 < digits.length →
    ∃ c1 c2 v1 v2, digits[2 * i]? = some c1 ∧ digits[2 * i + 1]? = some c2
      ∧ hexDigitVal c1 = some v1 ∧ hexDigitVal c2 = some v2
      ∧ (hexToBytes digits)[i]? = some (16 * v1 + v2) := by
  intro i
  induction i with
  | zero =>
    intro digits hall hlen
    match digits, hlen with
    | c1 :: c2 :: rest, _ =>
      have h1 : isHexDigitChar c1 = true := by
        simp only [List.all_cons, Bool.and_eq_true] at hall; exact hall.1
      have h2 : isHexDigitChar c2 = true := by
        simp only [List.all_cons, Bool.and_eq_true] at hall; exact hall.2.1
      obtain ⟨v1, hv1⟩ := hexDigitVal_isSome c1 h1
      obtain ⟨v2, hv2⟩ := hexDigitVal_isSome c2 h2
      exact ⟨c1, c2, v1, v2, by simp, by simp, hv1, hv2, by simp [hexToBytes, hv1, hv2]⟩
  | succ i ih =>
    intro digits hall hlen
    match digits, hlen with
    | c1 :: c2 :: rest, hlen =>
      have h1 : isHexDigitChar c1 = true := by
        simp only [List.all_cons, Bool.and_eq_true] at hall; exact hall.1
      have h2 : isHexDigitChar c2 = true := by
        simp only [List.all_cons, Bool.and_eq_true] at hall; exact hall.2.1
      have hrest : rest.all isHexDigitChar = true := by
        simp only [List.all_cons, Bool.and_eq_true] at hall; exact hall.2.2
      have hlen2 : 2 * i + 1 < rest.length := by
        simp at hlen; omega
      obtain ⟨v1, hv1⟩ := hexDigitVal_isSome c1 h1
      obtain ⟨v2, hv2⟩ := hexDigitVal_isSome c2 h2
      obtain ⟨d1, d2, w1, w2, hg1, hg2, hw1, hw2, hbyte⟩ := ih rest hrest hlen2
      have e1 : 2 * (i + 1) = 2 * i + 1 + 1 := by omega
      have e2 : 2 * (i + 1) + 1 = 2 * i + 1 + 1 + 1 := by omega
      refine ⟨d1, d2, w1, w2, ?_, ?_, hw1, hw2, ?_⟩
      · rw [e1]
        simpa using hg1
      · rw [e2]
        simpa using hg2
      · simpa [hexToBytes, hv1, hv2] using hbyte

theorem parseElementsF_spec (rec : ParserRun) (code : ParserCode) (elemTy : TypeTag)
    (repo : AptosParserRepo) : ∀ (xs vs : List Value),
    parseElementsF rec code elemTy repo xs = Except.ok vs →
    vs.length = xs.length ∧ ∀ i, (h1 : i < xs.length) → (h2 : i < vs.length) →
      rec code (xs.get ⟨i, h1⟩) elemTy repo = Except.ok (vs.get ⟨i, h2⟩) := by
  intro xs
  induction xs with
  | nil =>
    intro vs h
    simp [parseElementsF] at h
    subst h
    exact ⟨rfl, fun i h1 _ => absurd h1 (by simp)⟩
  | cons x rest ih =>
    intro vs h
    unfold parseElementsF at h
    cases hrun : rec code x elemTy repo with
    | error e => simp only [hrun] at h; exact Except.noConfusion h
    | ok v =>
      simp only [hrun] at h
      cases hrest : parseElementsF rec code elemTy repo rest with
      | error e => simp only [hrest] at h; exact Except.noConfusion h
      | ok vs2 =>
        simp only [hrest] at h
        have hv : vs = v :: vs2 := by
          cases h; rfl
        subst hv
        obtain ⟨hlen, hidx⟩ := ih vs2 hrest
        refine ⟨by simp [hlen], ?_⟩
        intro i h1 h2
        cases i with
        | zero => simpa using hrun
        | succ j =>
          have hj1 : j < rest.length := by simpa using h1
          have hj2 : j < vs2.length := by simpa using h2
          simpa using hidx j hj1 hj2

/-- C6: for element type `u8`, `VectorParser` accepts exactly the
`0x`-prefixed strings, converting consecutive hex-digit pairs to bytes
returned as a number array, errs on non-strings and unprefixed strings,
and never consults the registry (its result is the same under any
registry); for any other element type it requires an array and decodes
each element through the registry parser looked up by the element's
paramless name. -/
theorem VectorParser_u8_hex_and_registry_dispatch
    (fuel : Nat) (repo : AptosParserRepo) :
    (∀ digits : List Char, digits.all isHexDigitChar = true →
      VectorParser fuel (.vStr ("0x" ++ String.mk digits)) (.vector (.atomic .u8)) repo
        = Except.ok (.vArr ((hexToBytes digits).map (fun b => .vNum (b : Rat))))
      ∧ (hexToBytes digits).length = digits.length / 2
      ∧ (∀ i, 2 * i + 1 < digits.length →
          ∃ c1 c2 v1 v2, digits[2 * i]? = some c1 ∧ digits[2 * i + 1]? = some c2
            ∧ hexDigitVal c1 = some v1 ∧ hexDigitVal c2 = some v2
            ∧ (hexToBytes digits)[i]? = some (16 * v1 + v2)))
    ∧ (∀ s : String, strStartsWith s "0x" = false →
        VectorParser fuel (.vStr s) (.vector (.atomic .u8)) repo
          = Except.error "VectorU8 value is supposed to start with 0x")
    ∧ (∀ data : Value, (∀ s, data ≠ .vStr s) →
        VectorParser fuel data (.vector (.atomic .u8)) repo
          = Except.error "VectorU8 parser expects string data")
    ∧ (∀ (data : Value) (repo2 : AptosParserRepo),
        VectorParser fuel data (.vector (.atomic .u8)) repo2
          = VectorParser fuel data (.vector (.atomic .u8)) repo)
    ∧ (∀ elemTy : TypeTag, elemTy ≠ .atomic .u8 →
        (∀ data : Value, (∀ xs, data ≠ .vArr xs) →
          VectorParser fuel data (.vector elemTy) repo
            = Except.error "VectorParser expects Array type as data")
        ∧ (∀ (xs vs : List Value) (code : ParserCode),
            getParserFromParamlessName repo (getTypeTagParamlessName elemTy) = some code →
            VectorParser fuel (.vArr xs) (.vector elemTy) repo = Except.ok (.vArr vs) →
            vs.length = xs.length
            ∧ ∀ i, (h1 : i < xs.length) → (h2 : i < vs.length) →
                runParser fuel code (xs.get ⟨i, h1⟩) elemTy repo
                  = Except.ok (vs.get ⟨i, h2⟩))) := by
  refine ⟨?_, ?_, ?_, ?_, ?_⟩
  · intro digits hall
    have hpre : strStartsWith ("0x" ++ String.mk digits) "0x" = true := by
      simp [strStartsWith, String.data_append, List.isPrefixOf]
    have hdrop : strDrop ("0x" ++ String.mk digits) 2 = String.mk digits := by
      simp [strDrop, String.data_append]
    refine ⟨?_, hexToBytes_length digits hall, fun i hi => hexToBytes_getElem i digits hall hi⟩
    simp [VectorParser, VectorParserF, parseVectorU8, hpre, hdrop]
  · intro s hpre
    simp [VectorParser, VectorParserF, parseVectorU8, hpre]
  · intro data hnostr
    cases data with
    | vStr s => exact absurd rfl (hnostr s)
    | vNull => simp [VectorParser, VectorParserF, parseVectorU8]
    | vBool b => simp [VectorParser, VectorParserF, parseVectorU8]
    | vNum q => simp [VectorParser, VectorParserF, parseVectorU8]
    | vArr xs => simp [VectorParser, VectorParserF, parseVectorU8]
    | vObj m => simp [VectorParser, VectorParserF, parseVectorU8]
    | vBigInt z => simp [VectorParser, VectorParserF, parseVectorU8]
    | vHex h => simp [VectorParser, VectorParserF, parseVectorU8]
  · intro data repo2
    rfl
  · intro elemTy hne
    constructor
    · intro data hnoarr
      cases elemTy with
      | atomic a =>
        cases a with
        | u8 => exact absurd rfl hne
        | bool =>
          cases data with
          | vArr xs => exact absurd rfl (hnoarr xs)
          | vNull => rfl
          | vBool b => rfl
          | vNum q => rfl
          | vStr s => rfl
          | vObj m => rfl
          | vBigInt z => rfl
          | vHex h => rfl
        | u64 =>
          cases data with
          | vArr xs => exact absurd rfl (hnoarr xs)
          | vNull => rfl
          | vBool b => rfl
          | vNum q => rfl
          | vStr s => rfl
          | vObj m => rfl
          | vBigInt z => rfl
          | vHex h => rfl
        | u128 =>
          cases data with
          | vArr xs => exact absurd rfl (hnoarr xs)
          | vNull => rfl
          | vBool b => rfl
          | vNum q => rfl
          | vStr s => rfl
          | vObj m => rfl
          | vBigInt z => rfl
          | vHex h => rfl
        | address =>
          cases data with
          | vArr xs => exact absurd rfl (hnoarr xs)
          | vNull => rfl
          | vBool b => rfl
          | vNum q => rfl
          | vStr s => rfl
          | vObj m => rfl
          | vBigInt z => rfl
          | vHex h => rfl
      | vector e =>
        cases data with
        | vArr xs => exact absurd rfl (hnoarr xs)
        | vNull => rfl
        | vBool b => rfl
        | vNum q => rfl
        | vStr s => rfl
        | vObj m => rfl
        | vBigInt z => rfl
        | vHex h => rfl
      | structTag a m2 n2 ps2 =>
        cases data with
        | vArr xs => exact absurd rfl (hnoarr xs)
        | vNull => rfl
        | vBool b => rfl
        | vNum q => rfl
        | vStr s => rfl
        | vObj m => rfl
        | vBigInt z => rfl
        | vHex h => rfl
      | typeParamIdx i =>
        cases data with
        | vArr xs => exact absurd rfl (hnoarr xs)
        | vNull => rfl
        | vBool b => rfl
        | vNum q => rfl
        | vStr s => rfl
        | vObj m => rfl
        | vBigInt z => rfl
        | vHex h => rfl
    · intro xs vs code hcode hrun
      have hrun2 : parseElementsF (runParser fuel) code elemTy repo xs = Except.ok vs := by
        cases elemTy with
        | atomic a =>
          cases a with
          | u8 => exact absurd rfl hne
          | bool =>
            simp only [VectorParser, VectorParserF, hcode] at hrun
            cases hpe : parseElementsF (runParser fuel) code (.atomic .bool) repo xs with
            | error e => rw [hpe] at hrun; exact Except.noConfusion hrun
            | ok vs2 =>
              rw [hpe] at hrun
              cases hrun
              rfl
          | u64 =>
            simp only [VectorParser, VectorParserF, hcode] at hrun
            cases hpe : parseElementsF (runParser fuel) code (.atomic .u64) repo xs with
            | error e => rw [hpe] at hrun; exact Except.noConfusion hrun
            | ok vs2 =>
              rw [hpe] at hrun
              cases hrun
              rfl
          | u128 =>
            simp only [VectorParser, VectorParserF, hcode] at hrun
            cases hpe : parseElementsF (runParser fuel) code (.atomic .u128) repo xs with
            | error e => rw [hpe] at hrun; exact Except.noConfusion hrun
            | ok vs2 =>
              rw [hpe] at hrun
              cases hrun
              rfl
          | address =>
            simp only [VectorParser, VectorParserF, hcode] at hrun
            cases hpe : parseElementsF (runParser fuel) code (.atomic .address) repo xs with
            | error e => rw [hpe] at hrun; exact Except.noConfusion hrun
            | ok vs2 =>
              rw [hpe] at hrun
              cases hrun
              rfl
        | vector e =>
          simp only [VectorParser, VectorParserF, hcode] at hrun
          cases hpe : parseElementsF (runParser fuel) code (.vector e) repo xs with
          | error e2 => rw [hpe] at hrun; exact Except.noConfusion hrun
          | ok vs2 =>
            rw [hpe] at hrun
            cases hrun
            rfl
        | structTag a m2 n2 ps2 =>
          simp only [VectorParser, VectorParserF, hcode] at hrun
          cases hpe : parseElementsF (runParser fuel) code (.structTag a m2 n2 ps2) repo xs with
          | error e2 => rw [hpe] at hrun; exact Except.noConfusion hrun
          | ok vs2 =>
            rw [hpe] at hrun
            cases hrun
            rfl
        | typeParamIdx i =>
          simp only [VectorParser, VectorParserF, hcode] at hrun
          cases hpe : parseElementsF (runParser fuel) code (.typeParamIdx i) repo xs with
          | error e2 => rw [hpe] at hrun; exact Except.noConfusion hrun
          | ok vs2 =>
            rw [hpe] at hrun
            cases hrun
            rfl
      exact parseElementsF_spec (runParser fuel) code elemTy repo xs vs hrun2

/-- Witness for C6: `"0x0aff"` decodes to bytes `[10, 255]`; an
unprefixed string and an array are rejected for `vector<u8>`; a
`vector<u64>` decodes its single element through the registry. -/
theorem VectorParser_u8_hex_and_registry_dispatch_witness :
    VectorParser 1 (.vStr ("0x" ++ String.mk ['0', 'a', 'f', 'f'])) (.vector (.atomic .u8))
        defaultRepo
      = Except.ok (.vArr ((hexToBytes ['0', 'a', 'f', 'f']).map (fun b => .vNum (b : Rat))))
    ∧ VectorParser 1 (.vStr "ff") (.vector (.atomic .u8)) defaultRepo
      = Except.error "VectorU8 value is supposed to start with 0x"
    ∧ VectorParser 1 (.vArr []) (.vector (.atomic .u8)) defaultRepo
      = Except.error "VectorU8 parser expects string data"
    ∧ ([Value.vBigInt 3].length = [Value.vStr "3"].length
      ∧ ∀ i, (h1 : i < [Value.vStr "3"].length) → (h2 : i < [Value.vBigInt 3].length) →
          runParser 1 ParserCode.u64P ([Value.vStr "3"].get ⟨i, h1⟩) (.atomic .u64)
            defaultRepo = Except.ok ([Value.vBigInt 3].get ⟨i, h2⟩)) :=
  ⟨((VectorParser_u8_hex_and_registry_dispatch 1 defaultRepo).1 ['0', 'a', 'f', 'f']
      rfl).1,
   (VectorParser_u8_hex_and_registry_dispatch 1 defaultRepo).2.1 "ff" rfl,
   (VectorParser_u8_hex_and_registry_dispatch 1 defaultRepo).2.2.1 (.vArr [])
     (fun s h => Value.noConfusion h),
   ((VectorParser_u8_hex_and_registry_dispatch 1 defaultRepo).2.2.2.2 (.atomic .u64)
     (by simp)).2 [.vStr "3"] [.vBigInt 3] ParserCode.u64P rfl rfl⟩

/-- The parse-then-decode pipeline `loadAccount` applies to one entry. -/
def entryParse (fuel : Nat) (repo : AptosParserRepo) (e : ResourceEntry) :
    Except String Value :=
  match parseTypeTagOrThrow e.type with
  | Except.error err => Except.error err
  | Except.ok tag => AptosParserRepo.parse fuel repo e.data tag

/-- The resource key an entry would be cached under. -/
def entryKeyOf (address : HexString) (e : ResourceEntry) : Option String :=
  match parseTypeTagOrThrow e.type with
  | Except.ok tag => some (AptosResourceCache.getResourceKey address tag)
  | Except.error _ => none

/-- The keys `loadAccount` returns: one per entry that parses and
decodes, in listing order. -/
def keysOfEntries (fuel : Nat) (repo : AptosParserRepo) (address : HexString)
    (rs : List ResourceEntry) : List String :=
  rs.filterMap (fun e => if (entryParse fuel repo e).isOk then entryKeyOf address e else none)

theorem updateResource_watchedAddresses (st : CacheState) (k : String) (v : Value) :
    (AptosResourceCache.updateResource st k v).1.watchedAddresses
      = st.watchedAddresses := rfl

theorem loadAccountLoop_watched (fuel : Nat) (repo : AptosParserRepo)
    (address : HexString) (listener : Option ListenerType) :
    ∀ (rs : List ResourceEntry) (st : CacheState),
      ((AptosResourceCache.loadAccountLoop fuel repo address listener st rs).1).watchedAddresses
        = st.watchedAddresses := by
  intro rs
  induction rs with
  | nil => intro st; rfl
  | cons e rest ih =>
    intro st
    unfold AptosResourceCache.loadAccountLoop
    cases hp : parseTypeTagOrThrow e.type with
    | error er => simp
    | ok tag =>
      simp only []
      cases hd : AptosParserRepo.parse fuel repo e.data tag with
      | error er => simpa using ih st
      | ok v =>
        by_cases hc : (alookup (AptosResourceCache.getResourceKey address tag)
            st.cachedResources).isSome = true <;>
          cases listener <;>
            simp [hc, AptosResourceCache.updateResource,
              addListenerForResource_watchedAddresses, ih]

theorem loadAccountLoop_all_parse_ok (fuel : Nat) (repo : AptosParserRepo)
    (address : HexString) (listener : Option ListenerType) :
    ∀ (rs : List ResourceEntry) (st : CacheState),
      (∀ e ∈ rs, (parseTypeTagOrThrow e.type).isOk = true) →
      ∃ st2 evs, AptosResourceCache.loadAccountLoop fuel repo address listener st rs
          = (st2, evs, Except.ok (keysOfEntries fuel repo address rs))
        ∧ (∀ k, (alookup k st.cachedResources).isSome = true →
            (alookup k st2.cachedResources).isSome = true)
        ∧ (∀ k ∈ keysOfEntries fuel repo address rs,
            (alookup k st2.cachedResources).isSome = true) := by
  intro rs
  induction rs with
  | nil =>
    intro st _
    exact ⟨st, [], by simp [AptosResourceCache.loadAccountLoop, keysOfEntries],
      fun k h => h, by simp [keysOfEntries]⟩
  | cons e rest ih =>
    intro st hall
    have hpe : (parseTypeTagOrThrow e.type).isOk = true := hall e (by simp)
    have hrest : ∀ x ∈ rest, (parseTypeTagOrThrow x.type).isOk = true :=
      fun x hx => hall x (by simp [hx])
    cases hp : parseTypeTagOrThrow e.type with
    | error er => rw [hp] at hpe; exact absurd hpe (by simp [Except.isOk, Except.toBool])
    | ok tag =>
      cases hd : AptosParserRepo.parse fuel repo e.data tag with
      | error er =>
        have hkey : (entryParse fuel repo e).isOk = false := by
          simp [entryParse, hp, hd, Except.isOk, Except.toBool]
        obtain ⟨st2, evs, heq, hpers, hmem⟩ := ih st hrest
        refine ⟨st2, evs, ?_, hpers, ?_⟩
        · unfold AptosResourceCache.loadAccountLoop
          simp only [hp, hd]
          rw [heq]
          simp [keysOfEntries, List.filterMap_cons, hkey]
        · intro k hk
          refine hmem k ?_
          simpa [keysOfEntries, List.filterMap_cons, hkey] using hk
      | ok v =>
        have hkeysome : (entryParse fuel repo e).isOk = true := by
          simp [entryParse, hp, hd, Except.isOk, Except.toBool]
        have hkeyof : entryKeyOf address e
            = some (AptosResourceCache.getResourceKey address tag) := by
          simp [entryKeyOf, hp]
        set key := AptosResourceCache.getResourceKey address tag with hkeydef
        have hcons : keysOfEntries fuel repo address (e :: rest)
            = key :: keysOfEntries fuel repo address rest := by
          simp [keysOfEntries, List.filterMap_cons, hkeysome, hkeyof]
        set stev := if (alookup key st.cachedResources).isSome = true then
            AptosResourceCache.updateResource st key v
          else ({ st with cachedResources := upsert key v st.cachedResources }, [])
          with hstevdef
        set st1 := match listener with
          | some l => AptosResourceCache.addListenerForResource stev.1 key l
          | none => stev.1
          with hst1def
        have hstev1 : ∀ k2, (alookup k2 st.cachedResources).isSome = true →
            (alookup k2 stev.1.cachedResources).isSome = true := by
          intro k2 hk2
          rw [hstevdef]
          split <;> simp [AptosResourceCache.updateResource, alookup_upsert_isSome, hk2]
        have hstevkey : (alookup key stev.1.cachedResources).isSome = true := by
          rw [hstevdef]
          split <;> simp [AptosResourceCache.updateResource, alookup_upsert_self]
        have hst1cached : st1.cachedResources = stev.1.cachedResources := by
          rw [hst1def]
          cases listener with
          | none => rfl
          | some l => exact addListenerForResource_cachedResources stev.1 key l
        obtain ⟨st2, evs, heq, hpers, hmem⟩ := ih st1 hrest
        refine ⟨st2, stev.2 ++ evs, ?_, ?_, ?_⟩
        · unfold AptosResourceCache.loadAccountLoop
          simp only [hp, hd]
          rw [hcons]
          rw [← hstevdef, ← hst1def, heq]
          simp [Except.map, hkeydef]
        · intro k2 hk2
          exact hpers k2 (by rw [hst1cached]; exact hstev1 k2 hk2)
        · intro k2 hk2
          rw [hcons] at hk2
          rcases List.mem_cons.mp hk2 with hk2 | hk2
          · subst hk2
            exact hpers key (by rw [hst1cached]; exact hstevkey)
          · exact hmem k2 hk2

theorem entryParse_isOk_parse (fuel : Nat) (repo : AptosParserRepo) (e : ResourceEntry)
    (h : (entryParse fuel repo e).isOk = true) :
    (parseTypeTagOrThrow e.type).isOk = true := by
  cases hp : parseTypeTagOrThrow e.type with
  | error er =>
    unfold entryParse at h
    rw [hp] at h
    simp [Except.isOk, Except.toBool] at h
  | ok tag => simp [Except.isOk, Except.toBool]

theorem keysOfEntries_of_all_ok (fuel : Nat) (repo : AptosParserRepo)
    (address : HexString) : ∀ (rs : List ResourceEntry),
    (∀ e ∈ rs, (entryParse fuel repo e).isOk = true) →
    keysOfEntries fuel repo address rs = rs.filterMap (entryKeyOf address) := by
  intro rs
  induction rs with
  | nil => intro _; rfl
  | cons e rest ih =>
    intro h
    have he : (entryParse fuel repo e).isOk = true := h e (by simp)
    have hr := ih (fun x hx => h x (by simp [hx]))
    simp only [keysOfEntries, List.filterMap_cons, he, if_true] at hr ⊢
    rw [hr]

/-- C5: when the account listing succeeds, every entry's type string
parses, and exactly one entry's raw data fails to decode, `loadAccount`
completes without raising, returns the resource keys of the other
entries in listing order, leaves each of them cached, and marks the
address watched. -/
theorem loadAccount_skips_single_decode_failure
    (fuel : Nat) (client : AptosClient) (repo : AptosParserRepo) (st : CacheState)
    (address : HexString) (listener : Option ListenerType)
    (pre post : List ResourceEntry) (bad : ResourceEntry)
    (hres : client.getAccountResources address = Except.ok (pre ++ bad :: post))
    (hgood : ∀ e ∈ pre ++ post, (entryParse fuel repo e).isOk = true)
    (hbadparse : (parseTypeTagOrThrow bad.type).isOk = true)
    (hbaddecode : (entryParse fuel repo bad).isOk = false) :
    ∃ st2 evs, AptosResourceCache.loadAccount fuel client repo st address listener
        = (st2, evs, Except.ok ((pre ++ post).filterMap (entryKeyOf address)))
      ∧ (∀ k ∈ (pre ++ post).filterMap (entryKeyOf address),
          (alookup k st2.cachedResources).isSome = true)
      ∧ address ∈ st2.watchedAddresses := by
  have hparseall : ∀ e ∈ pre ++ bad :: post, (parseTypeTagOrThrow e.type).isOk = true := by
    intro e he
    rcases List.mem_append.mp he with h | h
    · exact entryParse_isOk_parse fuel repo e (hgood e (List.mem_append.mpr (Or.inl h)))
    · rcases List.mem_cons.mp h with h | h
      · subst h; exact hbadparse
      · exact entryParse_isOk_parse fuel repo e (hgood e (List.mem_append.mpr (Or.inr h)))
  obtain ⟨st2, evs, heq, _, hmem⟩ := loadAccountLoop_all_parse_ok fuel repo address
    listener (pre ++ bad :: post) st hparseall
  have h1 : keysOfEntries fuel repo address pre = pre.filterMap (entryKeyOf address) :=
    keysOfEntries_of_all_ok fuel repo address pre
      (fun e he => hgood e (List.mem_append.mpr (Or.inl he)))
  have h2 : keysOfEntries fuel repo address post = post.filterMap (entryKeyOf address) :=
    keysOfEntries_of_all_ok fuel repo address post
      (fun e he => hgood e (List.mem_append.mpr (Or.inr he)))
  have hkeys : keysOfEntries fuel repo address (pre ++ bad :: post)
      = (pre ++ post).filterMap (entryKeyOf address) := by
    simp only [keysOfEntries, List.filterMap_append, List.filterMap_cons,
      hbaddecode] at h1 h2 ⊢
    simp [h1, h2]
  rw [hkeys] at heq hmem
  have hwatch := loadAccountLoop_watched fuel repo address listener (pre ++ bad :: post) st
  rw [heq] at hwatch
  refine ⟨{ st2 with watchedAddresses :=
      if address ∈ st2.watchedAddresses then st2.watchedAddresses
      else st2.watchedAddresses ++ [address] }, evs, ?_, ?_, ?_⟩
  · unfold AptosResourceCache.loadAccount
    simp only [hres]
    rw [heq]
  · intro k hk
    exact hmem k hk
  · by_cases hw : address ∈ st2.watchedAddresses <;> simp [hw]

/-- The account listing used by the C5 witness: three entries whose type
strings all parse, the middle one carrying an out-of-range `u8`. -/
theorem loadAccount_skips_single_decode_failure_witness :
    ∃ st2 evs, AptosResourceCache.loadAccount 1 sampleClient defaultRepo emptyCache
        ⟨"0xa"⟩ none
        = (st2, evs, Except.ok
            (([⟨"u64", .vStr "5"⟩, ⟨"bool", .vBool true⟩] : List ResourceEntry).filterMap
              (entryKeyOf ⟨"0xa"⟩)))
      ∧ (∀ k ∈ (([⟨"u64", .vStr "5"⟩, ⟨"bool", .vBool true⟩] : List ResourceEntry).filterMap
            (entryKeyOf ⟨"0xa"⟩)),
          (alookup k st2.cachedResources).isSome = true)
      ∧ (⟨"0xa"⟩ : HexString) ∈ st2.watchedAddresses := by
  have h := loadAccount_skips_single_decode_failure 1 sampleClient defaultRepo emptyCache
    ⟨"0xa"⟩ none [⟨"u64", .vStr "5"⟩] [⟨"bool", .vBool true⟩] ⟨"u8", .vNum 300⟩
    rfl (by
      intro e he
      simp only [List.cons_append, List.nil_append, List.mem_cons,
        List.not_mem_nil, or_false] at he
      rcases he with rfl | rfl <;> rfl)
    rfl rfl
  simpa using h

theorem loadAccountLoop_parse_error (fuel : Nat) (repo : AptosParserRepo)
    (address : HexString) (listener : Option ListenerType) (msg : String)
    (bad : ResourceEntry) (post : List ResourceEntry) :
    ∀ (pre : List ResourceEntry) (st : CacheState),
      (∀ e ∈ pre, (parseTypeTagOrThrow e.type).isOk = true) →
      parseTypeTagOrThrow bad.type = Except.error msg →
      AptosResourceCache.loadAccountLoop fuel repo address listener st (pre ++ bad :: post)
        = ((AptosResourceCache.loadAccountLoop fuel repo address listener st pre).1,
           (AptosResourceCache.loadAccountLoop fuel repo address listener st pre).2.1,
           Except.error msg) := by
  intro pre
  induction pre with
  | nil =>
    intro st _ hbad
    simp [AptosResourceCache.loadAccountLoop, hbad]
  | cons e pre ih =>
    intro st hall hbad
    have hpe : (parseTypeTagOrThrow e.type).isOk = true := hall e (by simp)
    have hrest : ∀ x ∈ pre, (parseTypeTagOrThrow x.type).isOk = true :=
      fun x hx => hall x (by simp [hx])
    cases hp : parseTypeTagOrThrow e.type with
    | error er => rw [hp] at hpe; exact absurd hpe (by simp [Except.isOk, Except.toBool])
    | ok tag =>
      cases hd : AptosParserRepo.parse fuel repo e.data tag with
      | error er =>
        rw [List.cons_append]
        unfold AptosResourceCache.loadAccountLoop
        simp only [hp, hd]
        exact ih st hrest hbad
      | ok v =>
        rw [List.cons_append]
        unfold AptosResourceCache.loadAccountLoop
        simp only [hp, hd]
        rw [ih _ hrest hbad]
        simp [Except.map]

/-- C9: an entry whose type string fails to parse makes `loadAccount`
propagate the parse error: the state is exactly the one produced by the
entries before the failing one (later entries are neither decoded nor
cached), no key list is returned, and `watchedAddresses` is untouched. -/
theorem loadAccount_propagates_type_parse_error
    (fuel : Nat) (client : AptosClient) (repo : AptosParserRepo) (st : CacheState)
    (address : HexString) (listener : Option ListenerType)
    (pre post : List ResourceEntry) (bad : ResourceEntry) (msg : String)
    (hres : client.getAccountResources address = Except.ok (pre ++ bad :: post))
    (hgood : ∀ e ∈ pre, (parseTypeTagOrThrow e.type).isOk = true)
    (hbad : parseTypeTagOrThrow bad.type = Except.error msg) :
    AptosResourceCache.loadAccount fuel client repo st address listener
      = ((AptosResourceCache.loadAccountLoop fuel repo address listener st pre).1,
         (AptosResourceCache.loadAccountLoop fuel repo address listener st pre).2.1,
         Except.error msg)
    ∧ (AptosResourceCache.loadAccount fuel client repo st address
        listener).1.watchedAddresses = st.watchedAddresses := by
  have hloop := loadAccountLoop_parse_error fuel repo address listener msg bad post pre st
    hgood hbad
  have hw := loadAccountLoop_watched fuel repo address listener pre st
  have hmain : AptosResourceCache.loadAccount fuel client repo st address listener
      = ((AptosResourceCache.loadAccountLoop fuel repo address listener st pre).1,
         (AptosResourceCache.loadAccountLoop fuel repo address listener st pre).2.1,
         Except.error msg) := by
    unfold AptosResourceCache.loadAccount
    simp only [hres]
    rw [hloop]
  exact ⟨hmain, by rw [hmain]; exact hw⟩

/-- A network client whose second account resource carries an
unparseable type string. -/
def badTypeClient : AptosClient :=
  { getAccountResource := fun _ _ => Except.error "unused",
    getAccountResources := fun _ => Except.ok
      [⟨"u64", .vStr "5"⟩, ⟨"notatype", .vNull⟩, ⟨"bool", .vBool true⟩] }

/-- Witness for C9: the malformed type string `notatype` aborts
`loadAccount` after the first entry; the address is not watched. -/
theorem loadAccount_propagates_type_parse_error_witness :
    AptosResourceCache.loadAccount 1 badTypeClient defaultRepo emptyCache ⟨"0xa"⟩ none
      = ((AptosResourceCache.loadAccountLoop 1 defaultRepo ⟨"0xa"⟩ none emptyCache
            [⟨"u64", .vStr "5"⟩]).1,
         (AptosResourceCache.loadAccountLoop 1 defaultRepo ⟨"0xa"⟩ none emptyCache
            [⟨"u64", .vStr "5"⟩]).2.1,
         Except.error "Invalid type tag: notatype")
    ∧ (AptosResourceCache.loadAccount 1 badTypeClient defaultRepo emptyCache ⟨"0xa"⟩
        none).1.watchedAddresses = emptyCache.watchedAddresses :=
  loadAccount_propagates_type_parse_error 1 badTypeClient defaultRepo emptyCache ⟨"0xa"⟩
    none [⟨"u64", .vStr "5"⟩] [⟨"bool", .vBool true⟩] ⟨"notatype", .vNull⟩
    "Invalid type tag: notatype" rfl
    (by intro e he; simp at he; subst he; rfl) rfl

/-- The delete notifications a trace holds for one key. -/
def isDeleteEventFor (k : String) (e : CacheEvent) : Bool :=
  e.resourceKey == k && e.kind == UpdateType.delete

theorem filter_delete_events_self (k : String) (ls : List ListenerType) :
    (ls.map (fun l => (⟨k, l, UpdateType.delete, none⟩ : CacheEvent))).filter
      (isDeleteEventFor k)
      = ls.map (fun l => (⟨k, l, UpdateType.delete, none⟩ : CacheEvent)) := by
  induction ls with
  | nil => rfl
  | cons l rest ih => simp [List.filter, isDeleteEventFor, ih]

theorem filter_events_other_key {k k2 : String} (h : ¬(k2 = k)) (ls : List ListenerType)
    (kd : UpdateType) (pv : Option Value) :
    (ls.map (fun l => (⟨k2, l, kd, pv⟩ : CacheEvent))).filter (isDeleteEventFor k)
      = [] := by
  have hb : (k2 == k) = false := by simpa using h
  induction ls with
  | nil => rfl
  | cons l rest ih =>
    simp [List.filter, isDeleteEventFor, hb, Bool.false_and, ih]

theorem filter_update_events (k k2 : String) (ls : List ListenerType) (v : Value) :
    (ls.map (fun l => (⟨k2, l, UpdateType.update, some v⟩ : CacheEvent))).filter
      (isDeleteEventFor k) = [] := by
  have hb : (UpdateType.update == UpdateType.delete) = false := rfl
  induction ls with
  | nil => rfl
  | cons l rest ih =>
    simp [List.filter, isDeleteEventFor, hb, Bool.and_false, ih]

theorem applyTxChange_step (fuel : Nat) (repo : AptosParserRepo) (st st1 : CacheState)
    (evs1 : List CacheEvent) (c : TxChange) (k : String)
    (h : AptosResourceCache.applyTxChange fuel repo st c = Except.ok (st1, evs1)) :
    st1.updateListener = st.updateListener
    ∧ ((alookup k st.cachedResources).isSome = true →
      (alookup k st1.cachedResources = none
        ∧ evs1 = (listenersOf st k).map
            (fun l => (⟨k, l, UpdateType.delete, none⟩ : CacheEvent)))
      ∨ ((alookup k st1.cachedResources).isSome = true
        ∧ evs1.filter (isDeleteEventFor k) = [])) := by
  cases c with
  | otherChange =>
    simp only [AptosResourceCache.applyTxChange] at h
    have hp : st1 = st ∧ evs1 = [] := by
      cases h; exact ⟨rfl, rfl⟩
    rcases hp with ⟨rfl, rfl⟩
    exact ⟨rfl, fun hk => Or.inr ⟨hk, rfl⟩⟩
  | writeResource a ty d =>
    simp only [AptosResourceCache.applyTxChange] at h
    cases hp : parseTypeTagOrThrow ty with
    | error e => rw [hp] at h; exact Except.noConfusion h
    | ok tag =>
      rw [hp] at h
      simp only [] at h
      by_cases hc : (alookup (AptosResourceCache.getResourceKey (HexString.fromString a)
          tag) st.cachedResources).isSome = true
      · rw [if_pos hc] at h
        cases hd : AptosParserRepo.parse fuel repo d tag with
        | error e => rw [hd] at h; exact Except.noConfusion h
        | ok v =>
          rw [hd] at h
          have hpair : AptosResourceCache.updateResource st
              (AptosResourceCache.getResourceKey (HexString.fromString a) tag) v
              = (st1, evs1) := by
            cases h; rfl
          rcases hpair with hpair
          have hst1 : st1 = (AptosResourceCache.updateResource st
              (AptosResourceCache.getResourceKey (HexString.fromString a) tag) v).1 := by
            rw [hpair]
          have hevs1 : evs1 = (AptosResourceCache.updateResource st
              (AptosResourceCache.getResourceKey (HexString.fromString a) tag) v).2 := by
            rw [hpair]
          subst hst1
          subst hevs1
          refine ⟨rfl, fun hk => Or.inr ⟨?_, ?_⟩⟩
          · exact alookup_upsert_isSome k _ v _ hk
          · exact filter_update_events k _ _ v
      · rw [if_neg hc] at h
        have hpq : st1 = st ∧ evs1 = [] := by
          cases h; exact ⟨rfl, rfl⟩
        rcases hpq with ⟨rfl, rfl⟩
        exact ⟨rfl, fun hk => Or.inr ⟨hk, rfl⟩⟩
  | deleteResource a r =>
    simp only [AptosResourceCache.applyTxChange] at h
    cases hp : parseTypeTagOrThrow r with
    | error e => rw [hp] at h; exact Except.noConfusion h
    | ok tag =>
      rw [hp] at h
      simp only [] at h
      by_cases hc : (alookup (AptosResourceCache.getResourceKey (HexString.fromString a)
          tag) st.cachedResources).isSome = true
      · rw [if_pos hc] at h
        have hpair : AptosResourceCache.deleteResource st
            (AptosResourceCache.getResourceKey (HexString.fromString a) tag)
            = (st1, evs1) := by
          cases h; rfl
        have hst1 : st1 = (AptosResourceCache.deleteResource st
            (AptosResourceCache.getResourceKey (HexString.fromString a) tag)).1 := by
          rw [hpair]
        have hevs1 : evs1 = (AptosResourceCache.deleteResource st
            (AptosResourceCache.getResourceKey (HexString.fromString a) tag)).2 := by
          rw [hpair]
        subst hst1
        subst hevs1
        refine ⟨rfl, fun hk => ?_⟩
        by_cases hkk : AptosResourceCache.getResourceKey (HexString.fromString a) tag = k
        · subst hkk
          exact Or.inl ⟨alookup_aerase_self _ _, rfl⟩
        · refine Or.inr ⟨?_, filter_events_other_key hkk _ _ _⟩
          rw [AptosResourceCache.deleteResource]
          simp only []
          rw [alookup_aerase_ne (fun hh => hkk hh.symm)]
          exact hk
      · rw [if_neg hc] at h
        have hpq : st1 = st ∧ evs1 = [] := by
          cases h; exact ⟨rfl, rfl⟩
        rcases hpq with ⟨rfl, rfl⟩
        exact ⟨rfl, fun hk => Or.inr ⟨hk, rfl⟩⟩

theorem applyTxChange_dead (fuel : Nat) (repo : AptosParserRepo) (st st1 : CacheState)
    (evs1 : List CacheEvent) (c : TxChange) (k : String)
    (h : AptosResourceCache.applyTxChange fuel repo st c = Except.ok (st1, evs1))
    (hdead : alookup k st.cachedResources = none) :
    alookup k st1.cachedResources = none
      ∧ evs1.filter (isDeleteEventFor k) = [] := by
  cases c with
  | otherChange =>
    simp only [AptosResourceCache.applyTxChange] at h
    cases h
    exact ⟨hdead, rfl⟩
  | writeResource a ty d =>
    simp only [AptosResourceCache.applyTxChange] at h
    cases hp : parseTypeTagOrThrow ty with
    | error e => rw [hp] at h; exact Except.noConfusion h
    | ok tag =>
      rw [hp] at h
      simp only [] at h
      by_cases hc : (alookup (AptosResourceCache.getResourceKey (HexString.fromString a)
          tag) st.cachedResources).isSome = true
      · have hne : ¬(AptosResourceCache.getResourceKey (HexString.fromString a) tag = k) := by
          intro hh
          rw [hh, hdead] at hc
          simp at hc
        rw [if_pos hc] at h
        cases hd : AptosParserRepo.parse fuel repo d tag with
        | error e => rw [hd] at h; exact Except.noConfusion h
        | ok v =>
          rw [hd] at h
          cases h
          constructor
          · simp only [AptosResourceCache.updateResource]
            rw [alookup_upsert_ne (fun hh => hne hh.symm)]
            exact hdead
          · exact filter_update_events k _ _ v
      · rw [if_neg hc] at h
        cases h
        exact ⟨hdead, rfl⟩
  | deleteResource a r =>
    simp only [AptosResourceCache.applyTxChange] at h
    cases hp : parseTypeTagOrThrow r with
    | error e => rw [hp] at h; exact Except.noConfusion h
    | ok tag =>
      rw [hp] at h
      simp only [] at h
      by_cases hc : (alookup (AptosResourceCache.getResourceKey (HexString.fromString a)
          tag) st.cachedResources).isSome = true
      · have hne : ¬(AptosResourceCache.getResourceKey (HexString.fromString a) tag = k) := by
          intro hh
          rw [hh, hdead] at hc
          simp at hc
        rw [if_pos hc] at h
        cases h
        constructor
        · simp only [AptosResourceCache.deleteResource]
          rw [alookup_aerase_ne (fun hh => hne hh.symm)]
          exact hdead
        · exact filter_events_other_key hne _ _ _
      · rw [if_neg hc] at h
        cases h
        exact ⟨hdead, rfl⟩

theorem updateFromTxLoop_dead (fuel : Nat) (repo : AptosParserRepo) (k : String) :
    ∀ (cs : List TxChange) (st st2 : CacheState) (evs : List CacheEvent)
      (r2 : Except String Unit),
      AptosResourceCache.updateFromTxLoop fuel repo st cs = (st2, evs, r2) →
      alookup k st.cachedResources = none →
      alookup k st2.cachedResources = none ∧ evs.filter (isDeleteEventFor k) = [] := by
  intro cs
  induction cs with
  | nil =>
    intro st st2 evs r2 h hdead
    unfold AptosResourceCache.updateFromTxLoop at h
    cases h
    exact ⟨hdead, rfl⟩
  | cons c rest ih =>
    intro st st2 evs r2 h hdead
    cases hstep : AptosResourceCache.applyTxChange fuel repo st c with
    | error e =>
      unfold AptosResourceCache.updateFromTxLoop at h
      rw [hstep] at h
      cases h
      exact ⟨hdead, rfl⟩
    | ok p =>
      rcases p with ⟨st1, evs1⟩
      unfold AptosResourceCache.updateFromTxLoop at h
      rw [hstep] at h
      simp only [] at h
      rcases hres : AptosResourceCache.updateFromTxLoop fuel repo st1 rest
        with ⟨st3, evs2, r3⟩
      rw [hres] at h
      obtain ⟨hd1, hrest1⟩ := applyTxChange_dead fuel repo st st1 evs1 c k hstep hdead
      obtain ⟨hd2, hrest2⟩ := ih st1 st3 evs2 r3 hres hd1
      cases h
      exact ⟨hd2, by simp [List.filter_append, hrest1, hrest2]⟩

theorem updateFromTxLoop_delete_aux (fuel : Nat) (repo : AptosParserRepo)
    (a r : String) (tag : TypeTag) (k : String)
    (htag : parseTypeTagOrThrow r = Except.ok tag)
    (hkey : AptosResourceCache.getResourceKey (HexString.fromString a) tag = k) :
    ∀ (cs : List TxChange) (st st2 : CacheState) (evs : List CacheEvent),
      AptosResourceCache.updateFromTxLoop fuel repo st cs = (st2, evs, Except.ok ()) →
      TxChange.deleteResource a r ∈ cs →
      (alookup k st.cachedResources).isSome = true →
      alookup k st2.cachedResources = none
        ∧ evs.filter (isDeleteEventFor k)
          = (listenersOf st k).map
              (fun l => (⟨k, l, UpdateType.delete, none⟩ : CacheEvent)) := by
  intro cs
  induction cs with
  | nil =>
    intro st st2 evs h hmem hk
    simp at hmem
  | cons c rest ih =>
    intro st st2 evs h hmem hk
    cases hstep : AptosResourceCache.applyTxChange fuel repo st c with
    | error e =>
      unfold AptosResourceCache.updateFromTxLoop at h
      rw [hstep] at h
      simp only [] at h
      simp at h
    | ok p =>
      rcases p with ⟨st1, evs1⟩
      unfold AptosResourceCache.updateFromTxLoop at h
      rw [hstep] at h
      simp only [] at h
      rcases hres : AptosResourceCache.updateFromTxLoop fuel repo st1 rest
        with ⟨st3, evs2, r3⟩
      rw [hres] at h
      obtain ⟨h1, h2, h3⟩ : st3 = st2 ∧ evs1 ++ evs2 = evs ∧ r3 = Except.ok () := by
        simpa [Prod.ext_iff] using h
      subst h1
      subst h3
      obtain ⟨hlist, hcases⟩ := applyTxChange_step fuel repo st st1 evs1 c k hstep
      rcases hcases hk with ⟨hdead1, hevs1⟩ | ⟨hlive, hevs1nil⟩
      · obtain ⟨hfinal, hrestfilter⟩ := updateFromTxLoop_dead fuel repo k rest st1 st3
          evs2 (Except.ok ()) hres hdead1
        refine ⟨hfinal, ?_⟩
        rw [← h2]
        rw [List.filter_append, hrestfilter, hevs1, filter_delete_events_self]
        simp
      · rcases List.mem_cons.mp hmem with hceq | hmemr
        · exfalso
          subst hceq
          simp only [AptosResourceCache.applyTxChange, htag] at hstep
          rw [hkey] at hstep
          rw [if_pos hk] at hstep
          cases hstep
          simp only [AptosResourceCache.deleteResource] at hlive
          rw [alookup_aerase_self] at hlive
          simp at hlive
        · obtain ⟨hfin, hfilter⟩ := ih st1 st3 evs2 hres hmemr hlive
          refine ⟨hfin, ?_⟩
          rw [← h2]
          rw [List.filter_append, hevs1nil, hfilter]
          simp [listenersOf, hlist]

/-- A cache holding the key `0xa/u64` with one listener on it. -/
def sampleTxState : CacheState :=
  ⟨[("0xa/u64", .vNull)], [], [("0xa/u64", [⟨"L1", 0⟩])], []⟩

/-- C4 counterexample: a transaction with `success = true` whose hash is
the null sentinel `'0x0'` and whose change-set deletes a currently
cached key leaves the key cached and fires no callback, because
`updateFromTransactionResult` also requires the hash check — so the
claim as stated (for every successful transaction) fails. -/
theorem updateFromTransactionResult_delete_needs_hash_counterexample :
    (UserTransaction.mk true "0x0" [TxChange.deleteResource "0xa" "u64"]).success = true
    ∧ TxChange.deleteResource "0xa" "u64"
        ∈ (UserTransaction.mk true "0x0" [TxChange.deleteResource "0xa" "u64"]).changes
    ∧ parseTypeTagOrThrow "u64" = Except.ok (.atomic .u64)
    ∧ AptosResourceCache.getResourceKey (HexString.fromString "0xa") (.atomic .u64)
        = "0xa/u64"
    ∧ (alookup "0xa/u64" sampleTxState.cachedResources).isSome = true
    ∧ AptosResourceCache.updateFromTransactionResult 1 defaultRepo sampleTxState
        (UserTransaction.mk true "0x0" [TxChange.deleteResource "0xa" "u64"])
        = (sampleTxState, [], Except.ok ()) :=
  ⟨rfl, by simp, rfl, rfl, rfl, rfl⟩

/-- C4 (amended with the null-hash guard): for a successful transaction
whose hash is not the sentinel `'0x0'` and whose change-set processing
completes, a `delete_resource` change for a currently cached key removes
that key, and the trace holds exactly one `('delete', null)` callback
per listener registered for the key; a `delete_resource` change for an
uncached key is a no-op emitting nothing. -/
theorem updateFromTransactionResult_delete_notifies
    (fuel : Nat) (repo : AptosParserRepo) (st st2 : CacheState)
    (txn : UserTransaction) (evs : List CacheEvent) (a r : String) (tag : TypeTag)
    (k : String)
    (hsucc : txn.success = true) (hhash : txn.hash ≠ "0x0")
    (hrun : AptosResourceCache.updateFromTransactionResult fuel repo st txn
      = (st2, evs, Except.ok ()))
    (hmem : TxChange.deleteResource a r ∈ txn.changes)
    (htag : parseTypeTagOrThrow r = Except.ok tag)
    (hkey : AptosResourceCache.getResourceKey (HexString.fromString a) tag = k)
    (hcached : (alookup k st.cachedResources).isSome = true) :
    (alookup k st2.cachedResources = none
      ∧ evs.filter (isDeleteEventFor k)
        = (listenersOf st k).map
            (fun l => (⟨k, l, UpdateType.delete, none⟩ : CacheEvent)))
    ∧ (∀ (st3 : CacheState) (a2 r2 : String) (tag2 : TypeTag),
        parseTypeTagOrThrow r2 = Except.ok tag2 →
        alookup (AptosResourceCache.getResourceKey (HexString.fromString a2) tag2)
          st3.cachedResources = none →
        AptosResourceCache.applyTxChange fuel repo st3 (TxChange.deleteResource a2 r2)
          = Except.ok (st3, [])) := by
  constructor
  · have hloop : AptosResourceCache.updateFromTxLoop fuel repo st txn.changes
        = (st2, evs, Except.ok ()) := by
      unfold AptosResourceCache.updateFromTransactionResult at hrun
      simpa [hsucc, hhash] using hrun
    exact updateFromTxLoop_delete_aux fuel repo a r tag k htag hkey txn.changes st st2
      evs hloop hmem hcached
  · intro st3 a2 r2 tag2 hp2 hdead2
    simp [AptosResourceCache.applyTxChange, hp2, hdead2]

/-- Witness for the amended C4 at a concrete transaction, cache and
listener. -/
theorem updateFromTransactionResult_delete_notifies_witness :
    AptosResourceCache.updateFromTransactionResult 1 defaultRepo sampleTxState
      (UserTransaction.mk true "0x123" [TxChange.deleteResource "0xa" "u64"])
      = ((⟨[], [], [("0xa/u64", [⟨"L1", 0⟩])], []⟩ : CacheState),
         [⟨"0xa/u64", ⟨"L1", 0⟩, UpdateType.delete, none⟩], Except.ok ())
    ∧ (alookup "0xa/u64"
        (⟨[], [], [("0xa/u64", [⟨"L1", 0⟩])], []⟩ : CacheState).cachedResources = none
      ∧ ([(⟨"0xa/u64", ⟨"L1", 0⟩, UpdateType.delete, none⟩ : CacheEvent)]).filter
          (isDeleteEventFor "0xa/u64")
        = (listenersOf sampleTxState "0xa/u64").map
            (fun l => (⟨"0xa/u64", l, UpdateType.delete, none⟩ : CacheEvent))) :=
  ⟨rfl,
   (updateFromTransactionResult_delete_notifies 1 defaultRepo sampleTxState
      (⟨[], [], [("0xa/u64", [⟨"L1", 0⟩])], []⟩ : CacheState)
      (UserTransaction.mk true "0x123" [TxChange.deleteResource "0xa" "u64"])
      [⟨"0xa/u64", ⟨"L1", 0⟩, UpdateType.delete, none⟩] "0xa" "u64" (.atomic .u64)
      "0xa/u64" rfl (by decide) rfl (by simp) rfl rfl rfl).1⟩
